import Mathlib

/-!
Verification development for the Weather_ChatBot repository.

The Python sources (`agents/chat_agent.py`, `agents/weather_agent.py`,
`core/app.py`, `utils/formatter.py`) are shallowly embedded below:

* Python strings are `List Char`; `str.strip`, slicing, `find`/`rfind`
  are modelled character-by-character.
* JSON values (`json.loads` results and provider payloads) are the
  inductive type `Json`.  JSON numbers keep the int/float distinction;
  float literals are represented exactly as rationals (an idealisation
  of IEEE doubles: none of the proved properties performs float
  arithmetic, values are only carried through unchanged).
* The two network collaborators (the Tomorrow.io HTTP endpoint and the
  Gemini LLM) are stubbed as explicit function parameters; every
  outbound call is recorded in a trace so that "performs no network
  call" becomes a statement about the trace.
* Python code that can raise is embedded as total functions returning
  the value the surrounding `try/except` produces; dictionary access on
  non-dict values (which would raise `AttributeError`/`TypeError` in
  Python) is modelled by returning the lookup default — no claim below
  exercises those paths.
* The prompt literals sent to the LLM reproduce the source text with the
  surrounding f-string indentation elided; no theorem depends on prompt
  contents (the LLM is universally quantified or stubbed).
-/

/-- Convert a string literal to the `List Char` representation used for
Python strings throughout this file. -/
def lc (s : String) : List Char := s.data

/-! ### Python `str.strip` and the sanitization pipeline of
`ChatAgent.process_query` (chat_agent.py lines 66-80) -/

/-- Characters removed by Python `str.strip()` (ASCII whitespace). -/
def pyIsSpace (c : Char) : Bool :=
  c == ' ' || c == '\t' || c == '\n' || c == '\r' || c == Char.ofNat 11 || c == Char.ofNat 12

/-- Python `str.lstrip()`. -/
def lstrip (s : List Char) : List Char := s.dropWhile pyIsSpace

/-- Python `str.rstrip()`. -/
def rstrip (s : List Char) : List Char := (s.reverse.dropWhile pyIsSpace).reverse

/-- Python `str.strip()`. -/
def pstrip (s : List Char) : List Char := rstrip (lstrip s)

/-- The opening/closing brace characters (written via code points to keep
string literals plain). -/
def lbrace : Char := Char.ofNat 123

def rbrace : Char := Char.ofNat 125

/-- The fenced-code marker stripped by the classifier. -/
def fence : List Char := lc "```"

/-- The optional language tag after the opening fence. -/
def jsonTag : List Char := lc "json"

/-- Python `s[:-3]` (the source only applies it when `len s ≥ 3`). -/
def pyDropLast3 (s : List Char) : List Char := s.take (s.length - 3)

/-- Index of the first occurrence of `c` (Python `str.find`, as an
`Option` instead of `-1`). -/
def firstIdx (c : Char) : List Char → Option Nat
  | [] => none
  | x :: xs => if x = c then some 0 else (firstIdx c xs).map (· + 1)

/-- Index of the last occurrence of `c` (Python `str.rfind`). -/
def lastIdx (c : Char) (s : List Char) : Option Nat :=
  (firstIdx c s.reverse).map (fun i => s.length - 1 - i)

/-- Lines 76-80 of chat_agent.py: find the first `{` and the last `}` and
slice to that span if both are found and ordered correctly. -/
def sliceBraces (s : List Char) : List Char :=
  match firstIdx lbrace s, lastIdx rbrace s with
  | some i, some j => if i < j then (s.drop i).take (j - i + 1) else s
  | some _, none => s
  | none, _ => s

/-- Lines 69-72 of chat_agent.py: strip a leading ``` fence and the
optional `json` language tag. -/
def stripLeadingFence (s : List Char) : List Char :=
  if fence.isPrefixOf s then
    let u := pstrip (s.drop 3)
    if jsonTag.isPrefixOf u then pstrip (u.drop 4) else u
  else s

/-- Lines 73-74 of chat_agent.py: strip a trailing ``` fence. -/
def stripTrailingFence (s : List Char) : List Char :=
  if fence.isSuffixOf s then pstrip (pyDropLast3 s) else s

/-- The full response-sanitization pipeline of `process_query`
(strip, fence removal, brace slicing). -/
def sanitize (raw : List Char) : List Char :=
  sliceBraces (stripTrailingFence (stripLeadingFence (pstrip raw)))

/-- Wrap a text in a fenced code block with the `json` language tag. -/
def wrapJson (t : List Char) : List Char := fence ++ jsonTag ++ '\n' :: (t ++ '\n' :: fence)

/-- Wrap a text in a fenced code block without a language tag. -/
def wrapPlain (t : List Char) : List Char := fence ++ '\n' :: (t ++ '\n' :: fence)

/-! ### JSON values -/

/-- JSON numbers: `json.loads` produces Python `int` for integer
literals and `float` otherwise; `NaN`/`Infinity`/`-Infinity` are accepted
by Python's default (`allow_nan=True`) decoder. -/
inductive JNum where
  | int (n : Int)
  | float (q : ℚ)
  | nan
  | inf
  | ninf
deriving DecidableEq

/-- JSON values (Python objects produced by `json.loads`, and provider
payloads). Objects keep their key/value pairs in insertion order. -/
inductive Json where
  | null
  | bool (b : Bool)
  | num (n : JNum)
  | str (s : List Char)
  | arr (xs : List Json)
  | obj (kvs : List (List Char × Json))

instance : Inhabited Json := ⟨Json.null⟩

/-- Dictionary lookup; Python keeps the last value bound to a duplicated
key, hence the reversed search. -/
def jlookup (kvs : List (List Char × Json)) (k : List Char) : Option Json :=
  (kvs.reverse.find? (fun kv => kv.1 == k)).map (·.2)

/-- Python `d.get(k, default)`; on non-dict values Python would raise
`AttributeError` — modelled as the default (no claim reaches that path). -/
def jGetD (j : Json) (k : List Char) (d : Json) : Json :=
  match j with
  | .obj kvs => (jlookup kvs k).getD d
  | _ => d

/-- Python `d.get(k)` (default `None`). -/
def jGet (j : Json) (k : List Char) : Json := jGetD j k Json.null

/-- Python `k in d` for dicts (and `False` elsewhere; Python would raise
`TypeError` on numbers — not reached by any claim). -/
def jHasKey (j : Json) (k : List Char) : Bool :=
  match j with
  | .obj kvs => kvs.any (fun kv => kv.1 == k)
  | .arr xs => xs.any (fun x => match x with | .str s => s == k | _ => false)
  | _ => false

/-- Python truthiness of a JSON value. -/
def jTruthy : Json → Bool
  | .null => false
  | .bool b => b
  | .num (.int n) => n != 0
  | .num (.float q) => q != 0
  | .num .nan => true
  | .num .inf => true
  | .num .ninf => true
  | .str s => !s.isEmpty
  | .arr xs => !xs.isEmpty
  | .obj kvs => !kvs.isEmpty

/-- Python `x is None` (the `.get` default). -/
def jIsNull : Json → Bool
  | .null => true
  | _ => false

/-- Python `isinstance(x, dict)`. -/
def jIsObj : Json → Bool
  | .obj _ => true
  | _ => false

/-- Python `isinstance(x, list)`. -/
def jIsArr : Json → Bool
  | .arr _ => true
  | _ => false

/-- Python `a or b`. -/
def pyOr (a b : Json) : Json := if jTruthy a then a else b

/-- Python `x == "name"` for a JSON value against a string literal. -/
def jEqStr (j : Json) (name : List Char) : Bool :=
  match j with
  | .str s => s == name
  | _ => false

/-- Decimal rendering of an integer (Python `str(int)`). -/
def intRepr (n : Int) : List Char := (toString n).data

/-- Decimal rendering of a natural number. -/
def natRepr (n : Nat) : List Char := (toString n).data

/-- Rendering of a float kept as an exact rational. Python prints the
shortest round-tripping decimal of the IEEE double; this model prints the
exact rational (claims only ever render integers and strings). -/
def ratRepr (q : ℚ) : List Char :=
  if q.den = 1 then intRepr q.num ++ lc ".0"
  else intRepr q.num ++ lc "/" ++ natRepr q.den

/-- Python `str()` of a JSON value as used inside f-strings. Containers
are rendered through `jserFuel` below. -/
def pyStrAtom : Json → Option (List Char)
  | .null => some (lc "None")
  | .bool true => some (lc "True")
  | .bool false => some (lc "False")
  | .num (.int n) => some (intRepr n)
  | .num (.float q) => some (ratRepr q)
  | .num .nan => some (lc "nan")
  | .num .inf => some (lc "inf")
  | .num .ninf => some (lc "-inf")
  | .str s => some s
  | _ => none

/-- Serialization of a JSON value, used both for Python `str()` on
lists/dicts and for `json.dumps`. The claims never inspect this text: it
only flows into LLM prompts, which every theorem quantifies over. -/
def jser : Json → List Char
  | .null => lc "null"
  | .bool true => lc "true"
  | .bool false => lc "false"
  | .num (.int n) => intRepr n
  | .num (.float q) => ratRepr q
  | .num .nan => lc "NaN"
  | .num .inf => lc "Infinity"
  | .num .ninf => lc "-Infinity"
  | .str s => '"' :: s ++ ['"']
  | .arr xs =>
      '[' :: (List.intercalate (lc ", ") (xs.attach.map (fun ⟨x, hx⟩ => jser x))) ++ [']']
  | .obj kvs =>
      Char.ofNat 123 ::
        (List.intercalate (lc ", ")
          (kvs.attach.map (fun ⟨⟨k, v⟩, hkv⟩ => '"' :: k ++ '"' :: ':' :: ' ' :: jser v))) ++
        [Char.ofNat 125]
decreasing_by
  · simp_wf
    have h := List.sizeOf_lt_of_mem hx
    omega
  · simp_wf
    have h := List.sizeOf_lt_of_mem hkv
    simp at h
    omega

/-- Python `str()` of a JSON value inside an f-string. -/
def pyStr (j : Json) : List Char := (pyStrAtom j).getD (jser j)

/-- `json.dumps(data, indent=2)` is modelled by the same serializer
(the claims never inspect the dumped text: it only flows into prompts).  -/
def jdumps2 (j : Json) : List Char := jser j


/-! ### `json.loads` (the strict JSON decoder used by `process_query`) -/

/-- Whitespace skipped between JSON tokens. -/
def jsonWs (c : Char) : Bool := c == ' ' || c == '\t' || c == '\n' || c == '\r'

def skipWs (s : List Char) : List Char := s.dropWhile jsonWs

/-- Value of one hex digit. -/
def hexVal (c : Char) : Option Nat :=
  if '0' ≤ c && c ≤ '9' then some (c.toNat - 48)
  else if 'a' ≤ c && c ≤ 'f' then some (c.toNat - 87)
  else if 'A' ≤ c && c ≤ 'F' then some (c.toNat - 70)
  else none

/-- Single-character string escapes. -/
def escChar (c : Char) : Option Char :=
  if c = '"' then some '"'
  else if c = '\\' then some '\\'
  else if c = '/' then some '/'
  else if c = 'b' then some (Char.ofNat 8)
  else if c = 'f' then some (Char.ofNat 12)
  else if c = 'n' then some '\n'
  else if c = 'r' then some '\r'
  else if c = 't' then some '\t'
  else none

/-- Parse the body of a JSON string (after the opening quote), returning
the decoded characters and the input after the closing quote. -/
def parseStringBody : Nat → List Char → Option (List Char × List Char)
  | 0, _ => none
  | _ + 1, [] => none
  | f + 1, c :: rest =>
    if c = '"' then some ([], rest)
    else if c = '\\' then
      match rest with
      | [] => none
      | e :: rest2 =>
        if e = 'u' then
          match rest2 with
          | h1 :: h2 :: h3 :: h4 :: rest6 =>
            match hexVal h1, hexVal h2, hexVal h3, hexVal h4 with
            | some a, some b, some c3, some d =>
              (parseStringBody f rest6).map
                (fun pr => (Char.ofNat (a * 4096 + b * 256 + c3 * 16 + d) :: pr.1, pr.2))
            | _, _, _, _ => none
          | _ => none
        else
          match escChar e with
          | some ch => (parseStringBody f rest2).map (fun pr => (ch :: pr.1, pr.2))
          | none => none
    else if c.toNat < 32 then none
    else (parseStringBody f rest).map (fun pr => (c :: pr.1, pr.2))

def isDigit (c : Char) : Bool := '0' ≤ c && c ≤ '9'

def digitsToNat (ds : List Char) : Nat := ds.foldl (fun a c => a * 10 + (c.toNat - 48)) 0

/-- Optional leading minus sign of a number token. -/
def pySign (s : List Char) : Bool × List Char :=
  match s with
  | c :: rest => if c = '-' then (true, rest) else (false, s)
  | [] => (false, s)

/-- Optional fraction part `.digits` (at least one digit required when
the dot is present). -/
def parseFrac : List Char → Option (List Char × List Char)
  | [] => some ([], [])
  | c :: rest =>
    if c = '.' then
      if (rest.takeWhile isDigit).isEmpty then none
      else some (rest.takeWhile isDigit, rest.drop (rest.takeWhile isDigit).length)
    else some ([], c :: rest)

/-- Optional exponent part `[eE][+-]?digits` (at least one digit
required when the marker is present). Returns (present, negative,
digits, rest). -/
def parseExp : List Char → Option (Bool × Bool × List Char × List Char)
  | [] => some (false, false, [], [])
  | c :: rest =>
    if c = 'e' || c = 'E' then
      match rest with
      | [] => none
      | e1 :: rest2 =>
        if e1 = '+' then
          if (rest2.takeWhile isDigit).isEmpty then none
          else some (true, false, rest2.takeWhile isDigit, rest2.drop (rest2.takeWhile isDigit).length)
        else if e1 = '-' then
          if (rest2.takeWhile isDigit).isEmpty then none
          else some (true, true, rest2.takeWhile isDigit, rest2.drop (rest2.takeWhile isDigit).length)
        else
          if (rest.takeWhile isDigit).isEmpty then none
          else some (true, false, rest.takeWhile isDigit, rest.drop (rest.takeWhile isDigit).length)
    else some (false, false, [], c :: rest)

/-- Parse a JSON number token (regex `-?(0|[1-9]\d*)(\.\d+)?([eE][-+]?\d+)?`);
integer literals become Python ints, anything with a fraction or exponent
becomes a float (exact rational here). -/
def parseNumber (s : List Char) : Option (Json × List Char) :=
  let (neg, s1) := pySign s
  let intDigits := s1.takeWhile isDigit
  if intDigits.isEmpty then none
  else if intDigits.length > 1 && intDigits.headD '0' = '0' then none
  else
    let s2 := s1.drop intDigits.length
    match parseFrac s2 with
    | none => none
    | some (fracDigits, s3) =>
      match parseExp s3 with
      | none => none
      | some (hasExp, expNeg, expDigits, s4) =>
        let sign : Int := if neg then -1 else 1
        if !hasExp && fracDigits.isEmpty then
          some (Json.num (JNum.int (sign * (digitsToNat intDigits : Int))), s2)
        else
          let mant : ℚ := (sign * ((digitsToNat intDigits * 10 ^ fracDigits.length + digitsToNat fracDigits : Nat) : Int) : Int)
          let base : ℚ := mant / (10 : ℚ) ^ fracDigits.length
          let e := digitsToNat expDigits
          let v : ℚ := if !hasExp then base else if expNeg then base / (10 : ℚ) ^ e else base * (10 : ℚ) ^ e
          some (Json.num (JNum.float v), s4)

def tokTrue : List Char := lc "true"
def tokFalse : List Char := lc "false"
def tokNull : List Char := lc "null"
def tokNaN : List Char := lc "NaN"
def tokInf : List Char := lc "Infinity"
def tokNInf : List Char := lc "-Infinity"

mutual

/-- Parse one JSON value (leading whitespace allowed), returning the
value and the rest of the input. -/
def parseVal : Nat → List Char → Option (Json × List Char)
  | 0, _ => none
  | f + 1, s =>
    match skipWs s with
    | [] => none
    | c :: rest =>
      if c = '"' then (parseStringBody f rest).map (fun pr => (Json.str pr.1, pr.2))
      else if c = lbrace then
        match skipWs rest with
        | c2 :: rest2 =>
          if c2 = rbrace then some (Json.obj [], rest2)
          else (parsePairs f (skipWs rest)).map (fun pr => (Json.obj pr.1, pr.2))
        | [] => none
      else if c = '[' then
        match skipWs rest with
        | c2 :: rest2 =>
          if c2 = ']' then some (Json.arr [], rest2)
          else (parseItems f (skipWs rest)).map (fun pr => (Json.arr pr.1, pr.2))
        | [] => none
      else if tokTrue.isPrefixOf (c :: rest) then some (Json.bool true, (c :: rest).drop 4)
      else if tokFalse.isPrefixOf (c :: rest) then some (Json.bool false, (c :: rest).drop 5)
      else if tokNull.isPrefixOf (c :: rest) then some (Json.null, (c :: rest).drop 4)
      else if tokNaN.isPrefixOf (c :: rest) then some (Json.num JNum.nan, (c :: rest).drop 3)
      else if tokInf.isPrefixOf (c :: rest) then some (Json.num JNum.inf, (c :: rest).drop 8)
      else if tokNInf.isPrefixOf (c :: rest) then some (Json.num JNum.ninf, (c :: rest).drop 9)
      else parseNumber (c :: rest)

/-- Parse the members of a JSON object after at least one member is
known to be present, up to and including the closing brace. -/
def parsePairs : Nat → List Char → Option (List (List Char × Json) × List Char)
  | 0, _ => none
  | f + 1, s =>
    match skipWs s with
    | [] => none
    | c :: rest =>
      if c = '"' then
        match parseStringBody f rest with
        | some (key, r1) =>
          match skipWs r1 with
          | c2 :: r2 =>
            if c2 = ':' then
              match parseVal f r2 with
              | some (v, r3) =>
                match skipWs r3 with
                | c3 :: r4 =>
                  if c3 = ',' then (parsePairs f r4).map (fun pr => ((key, v) :: pr.1, pr.2))
                  else if c3 = rbrace then some ([(key, v)], r4)
                  else none
                | [] => none
              | none => none
            else none
          | [] => none
        | none => none
      else none

/-- Parse the elements of a JSON array after at least one element is
known to be present, up to and including the closing bracket. -/
def parseItems : Nat → List Char → Option (List Json × List Char)
  | 0, _ => none
  | f + 1, s =>
    match parseVal f s with
    | some (v, r1) =>
      match skipWs r1 with
      | c :: r2 =>
        if c = ',' then (parseItems f r2).map (fun pr => (v :: pr.1, pr.2))
        else if c = ']' then some ([v], r2)
        else none
      | [] => none
    | none => none

end

/-- `json.loads`: parse a complete JSON document (trailing whitespace
allowed, anything else is a `JSONDecodeError`, i.e. `none`). -/
def parseJson (s : List Char) : Option Json :=
  match parseVal (s.length + 1) s with
  | some (v, rest) => if (skipWs rest).isEmpty then some v else none
  | none => none

/-! ### Intent classifier — `ChatAgent.process_query` (chat_agent.py 29-98) -/

/-- The fixed classification prompt (chat_agent.py lines 32-53; the
f-string indentation is elided). -/
def classifierPrompt (user_query : List Char) : List Char :=
  lc "You are a weather assistant. Based on the user\x27s query, determine what action to take.\nPossible actions are:\n1. \"current_weather\" - for current weather information\n2. \"forecast\" - for weather forecast\n3. \"general\" - for general weather questions\n\nAlso extract any relevant parameters like city name from the query.\n\nUser query: \"" ++
  user_query ++
  lc "\"\n\nRespond ONLY in JSON format with action and parameters:\n\x7b\n    \"action\": \"action_type\",\n    \"parameters\": \x7b\n        \"city\": \"city_name_if_applicable\",\n        \"days\": number_of_days_if_applicable\n    \x7d\n\x7d\n\nIMPORTANT: Respond ONLY with the JSON, no other text."

/-- The fallback action descriptor returned on any classification
failure (chat_agent.py lines 88-91 and 95-98). -/
def defaultAction : Json :=
  Json.obj [(lc "action", Json.str (lc "general")), (lc "parameters", Json.obj [])]

/-- `ChatAgent.process_query`: one LLM call, sanitization, JSON parse;
`JSONDecodeError` and every other exception (including transport
failures of the LLM call) degrade to `defaultAction`. The LLM is a stub
`prompt → Except error text`; `Except.error` models a raised exception. -/
def process_query (llm : List Char → Except (List Char) (List Char))
    (user_query : List Char) : Json :=
  match llm (classifierPrompt user_query) with
  | .error _ => defaultAction
  | .ok text =>
    match parseJson (sanitize text) with
    | some v => v
    | none => defaultAction

/-! ### Response composer — `ChatAgent.get_response` (chat_agent.py 100-343) -/

/-- One chat-history message (`{"role": ..., "content": ...}`). -/
structure ChatMsg where
  role : List Char
  content : List Char

/-- The outbound calls a composition performed, in order: locations sent
to the weather client and prompts sent to the LLM. -/
structure CallTrace where
  weather : List Json
  llm : List (List Char)

/-- Python `history[-n:]`. -/
def pyLastN (n : Nat) (l : List ChatMsg) : List ChatMsg := l.drop (l.length - n)

/-- The labeled-transcript context built from recent history
(chat_agent.py lines 118-119, 212-213, 318-319). -/
def mkContext (msgs : List ChatMsg) : List Char :=
  List.intercalate (lc "\n")
    (msgs.map (fun m =>
      if m.role == lc "user" then lc "User: " ++ m.content
      else lc "Assistant: " ++ m.content))

/-- Narration prompt for current weather (chat_agent.py lines 121-142,
indentation elided). -/
def currentPrompt (location dump context user_query : List Char) : List Char :=
  lc "You are a helpful weather assistant. The user asked about the current weather in " ++
  location ++
  lc ".\nHere is the raw weather data from the Tomorrow.io API:\n\n" ++
  dump ++
  lc "\n\nPlease provide a friendly, natural language response that includes the most important information.\nFocus on these key aspects:\n1. Current temperature and how it feels\n2. Weather conditions (sunny, cloudy, rainy, etc.)\n3. Humidity and wind information\n4. Any notable weather phenomena\n\nFormat your response in a clear, readable way. You can use formatting if appropriate.\nKeep your response concise but informative. Use emojis where appropriate to make it visually appealing.\nDo not include the raw JSON data in your response - translate it into natural language.\n\nRecent conversation context:\n" ++
  context ++
  lc "\n\nUser\x27s question: " ++ user_query

/-- Narration prompt for forecasts (chat_agent.py lines 215-240,
indentation elided). -/
def forecastPrompt (location dump context user_query : List Char) : List Char :=
  lc "You are a helpful weather assistant. The user asked for a weather forecast for " ++
  location ++
  lc ".\nHere is the raw forecast data from the Tomorrow.io API:\n\n" ++
  dump ++
  lc "\n\nPlease provide a friendly, natural language response that includes the most important information.\nOrganize the forecast in a clear, readable format, day by day.\nFor each day/time period, include:\n1. Date and time\n2. Temperature (and feels like temperature if available)\n3. Weather conditions\n4. Precipitation probability\n5. Wind information\n6. Notable weather phenomena\n\nYou can use formatting, lists, or any other format that best presents the data.\nUse emojis to make the forecast visually appealing.\nKeep your response concise but informative.\nDo not include the raw JSON data in your response - translate it into natural language.\n\nRecent conversation context:\n" ++
  context ++
  lc "\n\nUser\x27s question: " ++ user_query

/-- Prompt for the general action (chat_agent.py lines 321-329,
indentation elided). -/
def generalPrompt (context user_query : List Char) : List Char :=
  lc "You are a helpful weather assistant. Answer the user\x27s question based on your knowledge about weather.\nKeep your responses concise and informative. Use emojis where appropriate to make your responses visually appealing.\n\nConversation history:\n" ++
  context ++
  lc "\n\nUser\x27s latest question: " ++ user_query

/-- Line 198 of chat_agent.py. -/
def needLocationCurrent : List Char := lc "Please specify a location to get the current weather."

/-- Line 314 of chat_agent.py. -/
def needLocationForecast : List Char := lc "Please specify a location to get the weather forecast."

/-- Line 115 of chat_agent.py. -/
def sorryCurrent (location err : List Char) : List Char :=
  lc "Sorry, I couldn\x27t get the weather information for " ++ location ++
  lc ". Error: " ++ err

/-- Line 209 of chat_agent.py. -/
def sorryForecast (location err : List Char) : List Char :=
  lc "Sorry, I couldn\x27t get the forecast for " ++ location ++ lc ". Error: " ++ err

/-- Line 343 of chat_agent.py. -/
def generalError (err : List Char) : List Char :=
  lc "Sorry, I\x27m having trouble processing your request right now. Error: " ++ err

/-- Line 310 of chat_agent.py. -/
def unableForecast : List Char := lc "Unable to extract forecast information."

/-- Deterministic key-field extraction used when the narration LLM call
fails for current weather (chat_agent.py lines 160-196). -/
def currentFallback (weather_data location : Json) : List Char :=
  let data := jGetD weather_data (lc "data") (Json.obj [])
  let values := if jIsObj data then jGetD data (lc "values") (Json.obj []) else Json.obj []
  let location_info := if jIsObj weather_data then jGetD weather_data (lc "location") (Json.obj []) else Json.obj []
  let temp := jGet values (lc "temperature")
  let apparent_temp := jGet values (lc "temperatureApparent")
  let humidity := jGet values (lc "humidity")
  let wind_speed := jGet values (lc "windSpeed")
  let wind_direction := jGet values (lc "windDirection")
  let visibility := jGet values (lc "visibility")
  let loc_name := if jIsObj location_info then jGetD location_info (lc "name") location else location
  let t0 := lc "üå§Ô∏è Current weather in " ++ pyStr loc_name ++ lc ":\n\n"
  let t1 := if !jIsNull temp then
      t0 ++ lc "üå°Ô∏è Temperature: " ++ pyStr temp ++ lc "¬∞C" ++
        (if !jIsNull apparent_temp then
          lc " (Feels like " ++ pyStr apparent_temp ++ lc "¬∞C)\n" else lc "\n")
    else t0
  let t2 := if !jIsNull humidity then t1 ++ lc "üíß Humidity: " ++ pyStr humidity ++ lc "%\n" else t1
  let t3 := if !jIsNull wind_speed then
      let direction := if !jIsNull wind_direction then lc " from " ++ pyStr wind_direction ++ lc "¬∞" else []
      t2 ++ lc "üí® Wind: " ++ pyStr wind_speed ++ lc " m/s" ++ direction ++ lc "\n"
    else t2
  let t4 := if !jIsNull visibility then t3 ++ lc "üëÅÔ∏è Visibility: " ++ pyStr visibility ++ lc " km\n" else t3
  if t4.isEmpty then lc "Unable to extract weather information." else t4

/-- View a JSON value as a list (`isinstance(x, list)` guarded
subscripting). -/
def asArr : Json → Option (List Json)
  | .arr xs => some xs
  | _ => none

/-- Rendering of one forecast entry inside the deterministic fallback
loop (chat_agent.py lines 281-306). Non-dict entries render nothing. -/
def renderForecastEntry (entry : Json) : List Char :=
  if jIsObj entry then
    let time := jGetD entry (lc "time") (Json.str (lc "N/A"))
    let values := if jIsObj entry then jGetD entry (lc "values") (Json.obj []) else Json.obj []
    let temp := jGet values (lc "temperature")
    let apparent_temp := jGet values (lc "temperatureApparent")
    let humidity := jGet values (lc "humidity")
    let wind_speed := jGet values (lc "windSpeed")
    let precipitation_prob := jGet values (lc "precipitationProbability")
    lc "‚è∞ " ++ pyStr time ++ lc ":\n" ++
    (if !jIsNull temp then
      lc "   üå°Ô∏è " ++ pyStr temp ++ lc "¬∞C" ++
        (if !jIsNull apparent_temp then lc " (Feels like " ++ pyStr apparent_temp ++ lc "¬∞C)" else []) ++
        lc "\n"
     else []) ++
    (if !jIsNull humidity then lc "   üíß Humidity: " ++ pyStr humidity ++ lc "%\n" else []) ++
    (if !jIsNull precipitation_prob then lc "   üåßÔ∏è Precipitation: " ++ pyStr precipitation_prob ++ lc "%\n" else []) ++
    (if !jIsNull wind_speed then lc "   üí® Wind: " ++ pyStr wind_speed ++ lc " m/s\n" else []) ++
    lc "\n"
  else []

/-- Deterministic timeline walk used when the narration LLM call fails
for forecasts (chat_agent.py lines 258-312): first available granularity
among minutely/hourly/daily, first 10 entries. -/
def forecastFallback (forecast_data location : Json) : List Char :=
  let timelines := jGetD forecast_data (lc "timelines") (Json.obj [])
  let location_info := if jIsObj forecast_data then jGetD forecast_data (lc "location") (Json.obj []) else Json.obj []
  let loc_name := if jIsObj location_info then jGetD location_info (lc "name") location else location
  if jTruthy timelines && jIsObj timelines then
    let forecast_entries :=
      if jHasKey timelines (lc "minutely") && jIsArr (jGet timelines (lc "minutely")) then
        (asArr (jGet timelines (lc "minutely"))).getD []
      else if jHasKey timelines (lc "hourly") && jIsArr (jGet timelines (lc "hourly")) then
        (asArr (jGet timelines (lc "hourly"))).getD []
      else if jHasKey timelines (lc "daily") && jIsArr (jGet timelines (lc "daily")) then
        (asArr (jGet timelines (lc "daily"))).getD []
      else []
    if !forecast_entries.isEmpty then
      (forecast_entries.take 10).foldl
        (fun acc entry => acc ++ renderForecastEntry entry)
        (lc "üå§Ô∏è Weather forecast for " ++ pyStr loc_name ++ lc ":\n\n")
    else unableForecast
  else unableForecast

/-- `ChatAgent.get_response` after classification: the composer. The
weather client and LLM are stubs; the returned `CallTrace` records the
outbound calls the source would perform at this point. -/
def compose (wcur wfore : Json → Json)
    (llm : List Char → Except (List Char) (List Char))
    (action_data : Json) (user_query : List Char) (chat_history : List ChatMsg) :
    List Char × CallTrace :=
  let action := jGetD action_data (lc "action") (Json.str (lc "general"))
  let parameters := jGetD action_data (lc "parameters") (Json.obj [])
  if jEqStr action (lc "current_weather") then
    let location := pyOr (jGet parameters (lc "location")) (jGet parameters (lc "city"))
    if jTruthy location then
      let weather_data := wcur location
      if jHasKey weather_data (lc "error") then
        (sorryCurrent (pyStr location) (pyStr (jGet weather_data (lc "error"))), ⟨[location], []⟩)
      else
        let context := mkContext (pyLastN 3 chat_history)
        let prompt := currentPrompt (pyStr location) (jdumps2 weather_data) context user_query
        match llm prompt with
        | .ok text => (text, ⟨[location], [prompt]⟩)
        | .error _ => (currentFallback weather_data location, ⟨[location], [prompt]⟩)
    else (needLocationCurrent, ⟨[], []⟩)
  else if jEqStr action (lc "forecast") then
    let location := pyOr (jGet parameters (lc "location")) (jGet parameters (lc "city"))
    let _days := jGetD parameters (lc "days") (Json.num (JNum.int 5))
    if jTruthy location then
      let forecast_data := wfore location
      if jHasKey forecast_data (lc "error") then
        (sorryForecast (pyStr location) (pyStr (jGet forecast_data (lc "error"))), ⟨[location], []⟩)
      else
        let context := mkContext (pyLastN 3 chat_history)
        let prompt := forecastPrompt (pyStr location) (jdumps2 forecast_data) context user_query
        match llm prompt with
        | .ok text => (text, ⟨[location], [prompt]⟩)
        | .error _ => (forecastFallback forecast_data location, ⟨[location], [prompt]⟩)
    else (needLocationForecast, ⟨[], []⟩)
  else
    let context := mkContext (pyLastN 5 chat_history)
    let prompt := generalPrompt context user_query
    match llm prompt with
    | .ok text => (text, ⟨[], [prompt]⟩)
    | .error e => (generalError e, ⟨[], [prompt]⟩)

/-- The whole of `ChatAgent.get_response`: classify, then compose. -/
def get_response (wcur wfore : Json → Json)
    (llm : List Char → Except (List Char) (List Char))
    (user_query : List Char) (chat_history : List ChatMsg) : List Char × CallTrace :=
  compose wcur wfore llm (process_query llm user_query) user_query chat_history

/-! ### Weather client — `WeatherAgent` (weather_agent.py) -/

/-- One outbound HTTP GET (`requests.get(url, params=params, timeout=10)`). -/
structure HttpRequest where
  url : List Char
  params : List (List Char × Json)

/-- Outcome of the HTTP call, covering the exception taxonomy the source
handles: a 200 response with decoded JSON, `Timeout`, `ConnectionError`,
`HTTPError` raised by `raise_for_status` (with status, reason and the
optionally JSON-decodable body), and other `RequestException`s. -/
inductive HttpOutcome where
  | success (body : Json)
  | timeout
  | connErr (detail : List Char)
  | httpErr (status : Nat) (reason : List Char) (body : Option Json)
  | reqErr (detail : List Char)

def realtimeUrl : List Char := lc "https://api.tomorrow.io/v4/weather/realtime"

def forecastUrl : List Char := lc "https://api.tomorrow.io/v4/weather/forecast"

/-- Build `{"error": s}`. -/
def errObj (s : List Char) : Json := Json.obj [(lc "error", Json.str s)]

/-- Map an HTTP outcome to the uniform error-carrying result
(weather_agent.py lines 38-71; the forecast handler at lines 91-124 is
byte-for-byte identical in the source, so it is shared here). -/
def handleOutcome (o : HttpOutcome) (location : Json) : Json :=
  match o with
  | .success body => body
  | .timeout => errObj (lc "Weather API request timed out")
  | .connErr d => errObj (lc "Connection error. Please check your internet connection. Details: " ++ d)
  | .httpErr status reason body =>
    if status = 404 then
      errObj (lc "Location \x27" ++ pyStr location ++ lc "\x27 not found. Please check the spelling.")
    else if status = 401 then
      let detail :=
        match body with
        | some b =>
          if jHasKey b (lc "message") then jGet b (lc "message")
          else Json.str (lc "Invalid or missing API key for Tomorrow.io weather service")
        | none => Json.str (lc "Invalid or missing API key for Tomorrow.io weather service")
      Json.obj [(lc "error", detail)]
    else if status = 400 then errObj (lc "Bad request. Please check the location format.")
    else errObj (lc "Weather API error: " ++ natRepr status ++ lc " - " ++ reason)
  | .reqErr d => errObj (lc "Weather API error: " ++ d)

/-- `WeatherAgent.get_current_weather` (weather_agent.py lines 23-71),
with the HTTP transport as a stub; also returns the requests issued. -/
def get_current_weather (http : HttpRequest → HttpOutcome) (api_key : Json)
    (location : Json) : Json × List HttpRequest :=
  if !jTruthy location then (errObj (lc "Location is required"), [])
  else
    let req : HttpRequest := ⟨realtimeUrl, [(lc "location", location), (lc "apikey", api_key)]⟩
    (handleOutcome (http req) location, [req])

/-- `WeatherAgent.get_forecast` (weather_agent.py lines 73-124). The
`days` argument is clamped to 1..10 but — exactly as in the source —
never placed into the request parameters. -/
def get_forecast (http : HttpRequest → HttpOutcome) (api_key : Json)
    (location : Json) (days : Int) : Json × List HttpRequest :=
  if !jTruthy location then (errObj (lc "Location is required"), [])
  else
    let _days := max 1 (min days 10)
    let req : HttpRequest := ⟨forecastUrl, [(lc "location", location), (lc "apikey", api_key)]⟩
    (handleOutcome (http req) location, [req])

/-! ### The structured composition variant (spec §4.3 (i)) -/

/-- The structured record for current weather (spec §3
`ComposedResponse`, the scenario in §8, and the fields `core/app.py`
lines 281-291 and `utils/formatter.py` lines 10-28 consume). -/
structure CurrentRecord where
  city : Json
  temp : JNum
  condition : List Char
  humidity : JNum
  wind_speed : JNum
  updated : Json

/-- A composed response under the structured variant: either a plain
string or a structured record. -/
inductive StructResponse where
  | text (s : List Char)
  | current (r : CurrentRecord)
  | forecastList (city : Json) (entries : List Json) (days : Int)

/-- Modelled from the spec: the fixed "data incomplete" message of
§4.3 (i); the structured composer itself is absent from `src/`. -/
def incompleteCurrent : List Char := lc "Sorry, the weather data is incomplete."

/-- Modelled from the spec: "deep, defensively-typed extraction of
temperature, condition text, humidity, wind speed, and update timestamp
from the nested payload" (§4.3 (i)), over the OpenWeatherMap-shaped
payload of the §8 scenario (`main.temp`, `main.humidity`,
`weather[0].description`, `wind.speed`, `dt`). Returns `none` when a
required numeric field is missing; the condition text defaults to
"Unknown" if absent or non-string. -/
def extractCurrent (payload : Json) : Option (JNum × List Char × JNum × JNum × Json) :=
  let temp := jGet (jGet payload (lc "main")) (lc "temp")
  let humidity := jGet (jGet payload (lc "main")) (lc "humidity")
  let wind := jGet (jGet payload (lc "wind")) (lc "speed")
  let condition :=
    match jGet payload (lc "weather") with
    | .arr (w0 :: _) =>
      match jGet w0 (lc "description") with
      | .str s => s
      | _ => lc "Unknown"
    | _ => lc "Unknown"
  let updated := jGet payload (lc "dt")
  match temp, humidity, wind with
  | .num t, .num h, .num w => some (t, condition, h, w, updated)
  | _, _, _ => none

/-- Python `int(x)` with a default, for the `days` parameter. -/
def pyIntD (j : Json) (d : Int) : Int :=
  match j with
  | .num (.int n) => n
  | _ => d

/-- Modelled from the spec: the structured composition variant of the
Response Composer (§4.3 strategies (i)), which is absent from `src/` —
`core/app.py` (lines 281-297) and `utils/formatter.py` are its callers.
It keeps the location handling and error propagation of the narrated
composer, extracts a typed `CurrentRecord` for current weather (or the
incomplete-data message when a required numeric field is missing), and
for forecasts returns the raw forecast list sliced to at most
`days × 8` entries with `days` defaulting to 5 when absent. -/
def composeStructured (wcur wfore : Json → Json) (action_data : Json) :
    StructResponse × List Json :=
  let action := jGetD action_data (lc "action") (Json.str (lc "general"))
  let parameters := jGetD action_data (lc "parameters") (Json.obj [])
  if jEqStr action (lc "current_weather") then
    let location := pyOr (jGet parameters (lc "location")) (jGet parameters (lc "city"))
    if jTruthy location then
      let weather_data := wcur location
      if jHasKey weather_data (lc "error") then
        (.text (sorryCurrent (pyStr location) (pyStr (jGet weather_data (lc "error")))), [location])
      else
        match extractCurrent weather_data with
        | some (t, cond, h, w, upd) =>
          (.current ⟨location, t, cond, h, w, upd⟩, [location])
        | none => (.text incompleteCurrent, [location])
    else (.text needLocationCurrent, [])
  else if jEqStr action (lc "forecast") then
    let location := pyOr (jGet parameters (lc "location")) (jGet parameters (lc "city"))
    let days := pyIntD (jGetD parameters (lc "days") (Json.num (JNum.int 5))) 5
    if jTruthy location then
      let forecast_data := wfore location
      if jHasKey forecast_data (lc "error") then
        (.text (sorryForecast (pyStr location) (pyStr (jGet forecast_data (lc "error")))), [location])
      else
        let raw := (asArr (jGet forecast_data (lc "list"))).getD []
        (.forecastList location (raw.take (days * 8).toNat) days, [location])
    else (.text needLocationForecast, [])
  else
    (.text [], [])

/-! ### Spec-side description of the forecast fallback (claim C7) -/

/-- The priority order of timeline granularities named by the spec. -/
def granularityPriority : List (List Char) := [lc "minutely", lc "hourly", lc "daily"]

/-- First timeline key, in priority order, that is present with a list
value. -/
def firstTimeline (timelines : Json) : Option (List Json) :=
  granularityPriority.findSome? fun k => asArr (jGet timelines k)

/-- The deterministic forecast fallback as the spec words it: walk the
first available granularity in priority order, render up to the first 10
entries. -/
def forecastFallbackSpec (forecast_data location : Json) : List Char :=
  let timelines := jGetD forecast_data (lc "timelines") (Json.obj [])
  let location_info := if jIsObj forecast_data then jGetD forecast_data (lc "location") (Json.obj []) else Json.obj []
  let loc_name := if jIsObj location_info then jGetD location_info (lc "name") location else location
  if jTruthy timelines && jIsObj timelines then
    match firstTimeline timelines with
    | some entries =>
      if entries.isEmpty then unableForecast
      else
        lc "üå§Ô∏è Weather forecast for " ++ pyStr loc_name ++ lc ":\n\n" ++
          ((entries.take 10).map renderForecastEntry).flatten
    | none => unableForecast
  else unableForecast

/-! ### Shared concrete stubs used by witnesses and counterexamples -/

/-- A weather stub returning an empty (error-free) payload. -/
def wcStub : Json → Json := fun _ => Json.obj []

/-- An LLM stub that always answers with the text "ok". -/
def llmOkStub : List Char → Except (List Char) (List Char) := fun _ => Except.ok (lc "ok")

/-- An LLM stub whose call always raises. -/
def llmFailStub : List Char → Except (List Char) (List Char) := fun _ => Except.error (lc "boom")

/-- Action descriptor `{action: current_weather, parameters: {city: " "}}`
(whitespace-only city). -/
def cexDesc : Json :=
  Json.obj [(lc "action", Json.str (lc "current_weather")),
            (lc "parameters", Json.obj [(lc "city", Json.str (lc " "))])]

/-- Action descriptor `{action: current_weather, parameters: {city: ""}}`. -/
def emptyDesc : Json :=
  Json.obj [(lc "action", Json.str (lc "current_weather")),
            (lc "parameters", Json.obj [(lc "city", Json.str [])])]

/-- The weather payload of the C1 scenario. -/
def parisPayload : Json := Json.obj [
  (lc "main", Json.obj [(lc "temp", Json.num (JNum.float (18.2 : ℚ))),
                        (lc "humidity", Json.num (JNum.int 60))]),
  (lc "weather", Json.arr [Json.obj [(lc "description", Json.str (lc "clear sky"))]]),
  (lc "wind", Json.obj [(lc "speed", Json.num (JNum.float (3.4 : ℚ)))]),
  (lc "dt", Json.num (JNum.int 1700000000))]

/-- The classifier result of the C1 scenario. -/
def parisDesc : Json :=
  Json.obj [(lc "action", Json.str (lc "current_weather")),
            (lc "parameters", Json.obj [(lc "city", Json.str (lc "Paris"))])]

/-- Forecast action descriptor with `days` omitted. -/
def descForecastNoDays (loc : List Char) : Json :=
  Json.obj [(lc "action", Json.str (lc "forecast")),
            (lc "parameters", Json.obj [(lc "city", Json.str loc)])]

/-! ### Claim theorems -/

/-- Claim C1: for the query "What's the weather in Paris?" with the
classifier returning `{action: current_weather, parameters: {city:
"Paris"}}` and the weather stub returning the given payload, the
structured variant composes the structured record `{type: current, city:
"Paris", temp: 18.2, condition: "clear sky", humidity: 60, wind_speed:
3.4, updated: 1700000000}` — a `StructResponse.current` record, not a
plain string. -/
theorem c1_structured_current_scenario :
    composeStructured (fun _ => parisPayload) wcStub parisDesc =
      (StructResponse.current
        ⟨Json.str (lc "Paris"), JNum.float (18.2 : ℚ), lc "clear sky",
         JNum.int 60, JNum.float (3.4 : ℚ), Json.num (JNum.int 1700000000)⟩,
       [Json.str (lc "Paris")]) := rfl

/-- Claim C3 counterexample: the sanitized classifier response "3"
parses as JSON (so no exception is raised) but is not the required
structure; `process_query` returns the number 3, not the default
descriptor `{action: general, parameters: {}}`. -/
theorem c3_counterexample :
    process_query (fun _ => Except.ok (lc "3")) (lc "What is the weather?") =
      Json.num (JNum.int 3) ∧
    Json.num (JNum.int 3) ≠ defaultAction :=
  ⟨rfl, fun h => Json.noConfusion h⟩

/-- Claim C3 (amended): for every classifier response whose sanitized
text fails to parse as JSON at all (`json.loads` raises), and for every
transport failure of the classifier's LLM call, `process_query` returns
exactly `{action: general, parameters: {}}` (and, being total here,
raises nothing); responses that parse as JSON of the wrong shape are
returned as parsed. -/
theorem c3_amended (q text e : List Char) :
    (parseJson (sanitize text) = none →
      process_query (fun _ => Except.ok text) q = defaultAction) ∧
    process_query (fun _ => Except.error e) q = defaultAction := by
  constructor
  · intro h
    simp [process_query, h]
  · rfl

/-- Witness for `c3_amended` at the unparseable response "hello". -/
theorem c3_witness :
    parseJson (sanitize (lc "hello")) = none ∧
    process_query (fun _ => Except.ok (lc "hello")) (lc "q") = defaultAction ∧
    process_query (fun _ => Except.error (lc "boom")) (lc "q") = defaultAction :=
  ⟨rfl, (c3_amended (lc "q") (lc "hello") (lc "boom")).1 rfl,
    (c3_amended (lc "q") (lc "hello") (lc "boom")).2⟩

/-- Claim C6: for every empty or missing (`None`) location, both weather
client operations return `{"error": "Location is required"}` immediately
and issue no HTTP request. -/
theorem c6_empty_location_no_call (http : HttpRequest → HttpOutcome)
    (api_key location : Json) (days : Int)
    (h : location = Json.str [] ∨ location = Json.null) :
    get_current_weather http api_key location = (errObj (lc "Location is required"), []) ∧
    get_forecast http api_key location days = (errObj (lc "Location is required"), []) := by
  rcases h with rfl | rfl <;> exact ⟨rfl, rfl⟩

/-- Witness for `c6_empty_location_no_call` at the empty location. -/
theorem c6_witness :
    ((Json.str [] = Json.str [] ∨ Json.str [] = Json.null) ∧
     get_current_weather (fun _ => HttpOutcome.timeout) Json.null (Json.str []) =
       (errObj (lc "Location is required"), []) ∧
     get_forecast (fun _ => HttpOutcome.timeout) Json.null (Json.str []) 3 =
       (errObj (lc "Location is required"), [])) :=
  ⟨Or.inl rfl,
    (c6_empty_location_no_call (fun _ => HttpOutcome.timeout) Json.null (Json.str []) 3 (Or.inl rfl)).1,
    (c6_empty_location_no_call (fun _ => HttpOutcome.timeout) Json.null (Json.str []) 3 (Or.inl rfl)).2⟩

/-- Claim C8: composition with stubbed deterministic backends is a pure
function of its arguments — calling it twice with identical action
descriptor (here: identical query, which fully determines the
descriptor), query and history yields identical output and identical
outbound calls. The source mutates no agent state and no history, which
is what makes this embedding a function. -/
theorem c8_compose_deterministic (wcur wfore : Json → Json)
    (llm : List Char → Except (List Char) (List Char))
    (q : List Char) (hist : List ChatMsg) :
    get_response wcur wfore llm q hist = get_response wcur wfore llm q hist := rfl

/-- Claim C10: `get_forecast` never places the (clamped) `days` value in
the request parameters, so two calls differing only in `days` issue the
same request — `{location, apikey}` only — and return equal results
under every backend. -/
theorem c10_days_no_effect (http : HttpRequest → HttpOutcome)
    (api_key location : Json) (d1 d2 : Int) :
    get_forecast http api_key location d1 = get_forecast http api_key location d2 ∧
    (jTruthy location = true →
      (get_forecast http api_key location d1).2 =
        [⟨forecastUrl, [(lc "location", location), (lc "apikey", api_key)]⟩]) := by
  refine ⟨rfl, fun h => ?_⟩
  simp [get_forecast, h]

/-- Witness for `c10_days_no_effect` at a concrete location and days 1, 9. -/
theorem c10_witness :
    jTruthy (Json.str (lc "Oslo")) = true ∧
    get_forecast (fun _ => HttpOutcome.timeout) Json.null (Json.str (lc "Oslo")) 1 =
      get_forecast (fun _ => HttpOutcome.timeout) Json.null (Json.str (lc "Oslo")) 9 ∧
    (get_forecast (fun _ => HttpOutcome.timeout) Json.null (Json.str (lc "Oslo")) 1).2 =
      [⟨forecastUrl, [(lc "location", Json.str (lc "Oslo")), (lc "apikey", Json.null)]⟩] :=
  ⟨rfl,
    (c10_days_no_effect (fun _ => HttpOutcome.timeout) Json.null (Json.str (lc "Oslo")) 1 9).1,
    (c10_days_no_effect (fun _ => HttpOutcome.timeout) Json.null (Json.str (lc "Oslo")) 1 9).2 rfl⟩

/-- Claim C2 counterexample: for the whitespace-only (non-empty) city
parameter " ", the composer does *not* return the prompt-for-location
string and *does* call the weather provider (and then the LLM): Python
truthiness treats " " as a valid location. -/
theorem c2_counterexample :
    (∀ c ∈ lc " ", pyIsSpace c = true) ∧
    lc " " ≠ ([] : List Char) ∧
    (compose wcStub wcStub llmOkStub cexDesc (lc "q") []).2.weather = [Json.str (lc " ")] ∧
    (compose wcStub wcStub llmOkStub cexDesc (lc "q") []).1 = lc "ok" ∧
    lc "ok" ≠ needLocationCurrent := by
  refine ⟨by decide, by decide, rfl, rfl, by decide⟩

/-- Claim C2 (amended): for every location parameter that is empty or
missing (Python-falsy — so not for whitespace-only strings, which are
truthy and do trigger a fetch), the composer returns the fixed
prompt-for-location string for the current_weather and forecast actions
and performs no weather and no LLM call. -/
theorem c2_amended (wcur wfore : Json → Json)
    (llm : List Char → Except (List Char) (List Char))
    (action_data pj : Json) (q : List Char) (hist : List ChatMsg)
    (hP : jGetD action_data (lc "parameters") (Json.obj []) = pj)
    (hLoc : jTruthy (pyOr (jGet pj (lc "location")) (jGet pj (lc "city"))) = false) :
    (jGetD action_data (lc "action") (Json.str (lc "general")) = Json.str (lc "current_weather") →
      compose wcur wfore llm action_data q hist = (needLocationCurrent, ⟨[], []⟩)) ∧
    (jGetD action_data (lc "action") (Json.str (lc "general")) = Json.str (lc "forecast") →
      compose wcur wfore llm action_data q hist = (needLocationForecast, ⟨[], []⟩)) := by
  have hne : (lc "forecast" == lc "current_weather") = false := by decide
  constructor <;> intro hA <;>
    simp [compose, hA, hP, hLoc, jEqStr, hne]

/-- Witness for `c2_amended` at the descriptor with the empty city. -/
theorem c2_witness :
    jGetD emptyDesc (lc "parameters") (Json.obj []) = Json.obj [(lc "city", Json.str [])] ∧
    jTruthy (pyOr (jGet (Json.obj [(lc "city", Json.str [])]) (lc "location"))
                  (jGet (Json.obj [(lc "city", Json.str [])]) (lc "city"))) = false ∧
    compose wcStub wcStub llmOkStub emptyDesc (lc "q") [] = (needLocationCurrent, ⟨[], []⟩) :=
  ⟨rfl, rfl,
    (c2_amended wcStub wcStub llmOkStub emptyDesc (Json.obj [(lc "city", Json.str [])])
      (lc "q") [] rfl rfl).1 rfl⟩


/-- With the `days` parameter omitted (or `None`), the day count used by
the structured forecast composition is the default 5. -/
theorem days_default {pj : Json} (h : jGet pj (lc "days") = Json.null) :
    pyIntD (jGetD pj (lc "days") (Json.num (JNum.int 5))) 5 = 5 := by
  cases pj with
  | obj kvs =>
    simp only [jGet, jGetD] at h ⊢
    cases hl : jlookup kvs (lc "days") with
    | none => simp [pyIntD]
    | some v =>
      rw [hl] at h
      simp only [Option.getD_some] at h
      subst h
      simp [hl, pyIntD]
  | null => simp [jGetD, pyIntD]
  | bool b => simp [jGetD, pyIntD]
  | num n => simp [jGetD, pyIntD]
  | str s => simp [jGetD, pyIntD]
  | arr xs => simp [jGetD, pyIntD]

/-- Claim C4: spec-modelled structured forecast composition — with
`days` omitted from the parameters the day count used is 5, and the raw
forecast list handed back is sliced to at most 40 (5×8) entries. -/
theorem c4_forecast_default_days (wcur wfore : Json → Json)
    (action_data pj : Json) (loc : List Char) (xs : List Json)
    (hA : jGetD action_data (lc "action") (Json.str (lc "general")) = Json.str (lc "forecast"))
    (hP : jGetD action_data (lc "parameters") (Json.obj []) = pj)
    (hDays : jGet pj (lc "days") = Json.null)
    (hL : pyOr (jGet pj (lc "location")) (jGet pj (lc "city")) = Json.str loc)
    (hloc : loc ≠ [])
    (herr : jHasKey (wfore (Json.str loc)) (lc "error") = false)
    (hlist : jGet (wfore (Json.str loc)) (lc "list") = Json.arr xs) :
    composeStructured wcur wfore action_data =
      (StructResponse.forecastList (Json.str loc) (xs.take 40) 5, [Json.str loc]) ∧
    (xs.take 40).length ≤ 40 := by
  have hne : (lc "forecast" == lc "current_weather") = false := by decide
  have hemp : loc.isEmpty = false := by
    cases loc with
    | nil => exact absurd rfl hloc
    | cons a l => rfl
  constructor
  · simp [composeStructured, hA, hP, hL, jEqStr, hne, jTruthy, hemp, herr, hlist,
      days_default hDays, asArr]
  · simp

/-- A forecast stub payload carrying a 50-entry raw list. -/
def bigListPayload : Json := Json.obj [(lc "list", Json.arr (List.replicate 50 Json.null))]

/-- Witness for `c4_forecast_default_days`: a 50-entry raw list is
sliced to its first 40 entries. -/
theorem c4_witness :
    jGetD (descForecastNoDays (lc "Pune")) (lc "action") (Json.str (lc "general")) = Json.str (lc "forecast") ∧
    jGet (Json.obj [(lc "city", Json.str (lc "Pune"))]) (lc "days") = Json.null ∧
    composeStructured wcStub (fun _ => bigListPayload) (descForecastNoDays (lc "Pune")) =
      (StructResponse.forecastList (Json.str (lc "Pune")) ((List.replicate 50 Json.null).take 40) 5,
       [Json.str (lc "Pune")]) :=
  ⟨rfl, rfl,
    (c4_forecast_default_days wcStub (fun _ => bigListPayload)
      (descForecastNoDays (lc "Pune")) (Json.obj [(lc "city", Json.str (lc "Pune"))])
      (lc "Pune") (List.replicate 50 Json.null)
      rfl rfl rfl rfl (by decide) rfl rfl).1⟩

/-- Claim C9: a provider payload delivered as a successful response but
containing a top-level "error" key short-circuits composition for both
weather actions: the user-facing "Sorry, I couldn't get ..." string
embedding that key's value is returned and the LLM narration step is
never invoked. -/
theorem c9_error_payload_short_circuit :
    (∀ (wcur wfore : Json → Json) (llm : List Char → Except (List Char) (List Char))
       (action_data pj : Json) (q : List Char) (hist : List ChatMsg) (loc msg : List Char),
      jGetD action_data (lc "action") (Json.str (lc "general")) = Json.str (lc "current_weather") →
      jGetD action_data (lc "parameters") (Json.obj []) = pj →
      pyOr (jGet pj (lc "location")) (jGet pj (lc "city")) = Json.str loc →
      loc ≠ [] →
      jHasKey (wcur (Json.str loc)) (lc "error") = true →
      jGet (wcur (Json.str loc)) (lc "error") = Json.str msg →
      (compose wcur wfore llm action_data q hist).1 = sorryCurrent loc msg ∧
      (compose wcur wfore llm action_data q hist).2.llm = []) ∧
    (∀ (wcur wfore : Json → Json) (llm : List Char → Except (List Char) (List Char))
       (action_data pj : Json) (q : List Char) (hist : List ChatMsg) (loc msg : List Char),
      jGetD action_data (lc "action") (Json.str (lc "general")) = Json.str (lc "forecast") →
      jGetD action_data (lc "parameters") (Json.obj []) = pj →
      pyOr (jGet pj (lc "location")) (jGet pj (lc "city")) = Json.str loc →
      loc ≠ [] →
      jHasKey (wfore (Json.str loc)) (lc "error") = true →
      jGet (wfore (Json.str loc)) (lc "error") = Json.str msg →
      (compose wcur wfore llm action_data q hist).1 = sorryForecast loc msg ∧
      (compose wcur wfore llm action_data q hist).2.llm = []) := by
  have hne : (lc "forecast" == lc "current_weather") = false := by decide
  constructor <;>
  · intro wcur wfore llm action_data pj q hist loc msg hA hP hL hloc herr hval
    have hemp : loc.isEmpty = false := by
      cases loc with
      | nil => exact absurd rfl hloc
      | cons a l => rfl
    constructor <;>
      simp [compose, hA, hP, hL, jEqStr, hne, jTruthy, hemp, herr, hval,
        pyStr, pyStrAtom]

/-- Witness for `c9_error_payload_short_circuit`: an error-carrying 200
payload for Lima. -/
theorem c9_witness :
    jHasKey (errObj (lc "bad key")) (lc "error") = true ∧
    (compose (fun _ => errObj (lc "bad key")) wcStub llmOkStub
        (Json.obj [(lc "action", Json.str (lc "current_weather")),
                   (lc "parameters", Json.obj [(lc "city", Json.str (lc "Lima"))])])
        (lc "q") []).1 = sorryCurrent (lc "Lima") (lc "bad key") ∧
    (compose (fun _ => errObj (lc "bad key")) wcStub llmOkStub
        (Json.obj [(lc "action", Json.str (lc "current_weather")),
                   (lc "parameters", Json.obj [(lc "city", Json.str (lc "Lima"))])])
        (lc "q") []).2.llm = [] :=
  ⟨rfl,
    (c9_error_payload_short_circuit.1 (fun _ => errObj (lc "bad key")) wcStub llmOkStub
      (Json.obj [(lc "action", Json.str (lc "current_weather")),
                 (lc "parameters", Json.obj [(lc "city", Json.str (lc "Lima"))])])
      (Json.obj [(lc "city", Json.str (lc "Lima"))]) (lc "q") [] (lc "Lima") (lc "bad key")
      rfl rfl rfl (by decide) rfl rfl).1,
    (c9_error_payload_short_circuit.1 (fun _ => errObj (lc "bad key")) wcStub llmOkStub
      (Json.obj [(lc "action", Json.str (lc "current_weather")),
                 (lc "parameters", Json.obj [(lc "city", Json.str (lc "Lima"))])])
      (Json.obj [(lc "city", Json.str (lc "Lima"))]) (lc "q") [] (lc "Lima") (lc "bad key")
      rfl rfl rfl (by decide) rfl rfl).2⟩

/-! ### Bridge lemmas between the source fallback loop and its spec-side
description (claim C7) -/

/-- A successful dictionary lookup implies Python `in` is `True`. -/
theorem jHasKey_of_jGet_arr {kvs : List (List Char × Json)} {k : List Char} {xs : List Json}
    (h : jGet (Json.obj kvs) k = Json.arr xs) : jHasKey (Json.obj kvs) k = true := by
  simp only [jGet, jGetD, jlookup] at h
  cases hf : List.find? (fun kv => kv.1 == k) kvs.reverse with
  | none => rw [hf] at h; simp at h
  | some kv =>
    rw [hf] at h
    have hm := List.find?_some hf
    have hmem := List.mem_of_find?_eq_some hf
    rw [List.mem_reverse] at hmem
    simp only [jHasKey]
    exact List.any_eq_true.mpr ⟨kv, hmem, hm⟩

/-- Accumulating a rendered segment per entry by `foldl` is the same as
appending the concatenation of the per-entry renderings. -/
theorem foldl_append_flatten (f : Json → List Char) :
    ∀ (l : List Json) (h : List Char),
      l.foldl (fun acc e => acc ++ f e) h = h ++ (l.map f).flatten := by
  intro l
  induction l with
  | nil => intro h; simp
  | cons x xs ih => intro h; simp [ih, List.append_assoc]

/-- One selection level of the fallback: the guarded subscript equals
an optional-view lookup with the fallthrough as default. -/
theorem select_level {kvs : List (List Char × Json)} (k : List Char) (C : List Json) :
    (if jHasKey (Json.obj kvs) k && jIsArr (jGet (Json.obj kvs) k)
      then (asArr (jGet (Json.obj kvs) k)).getD [] else C) =
    (asArr (jGet (Json.obj kvs) k)).getD C := by
  cases hm : jGet (Json.obj kvs) k with
  | arr xs => simp [asArr, jIsArr, jHasKey_of_jGet_arr hm]
  | null => simp [asArr, jIsArr]
  | bool b => simp [asArr, jIsArr]
  | num n => simp [asArr, jIsArr]
  | str s2 => simp [asArr, jIsArr]
  | obj kvs2 => simp [asArr, jIsArr]

/-- The deterministic forecast fallback of the source equals its
spec-side description: first available granularity in the priority order
minutely, hourly, daily; at most the first 10 entries rendered. -/
theorem forecastFallback_eq_spec (fd loc : Json) :
    forecastFallback fd loc = forecastFallbackSpec fd loc := by
  simp only [forecastFallback, forecastFallbackSpec]
  generalize jGetD fd (lc "timelines") (Json.obj []) = T
  cases T with
  | obj kvs =>
    by_cases hk : kvs.isEmpty
    · simp [jTruthy, hk]
    · simp only [jTruthy, jIsObj, hk, Bool.not_false, Bool.and_self]
      simp only [select_level, firstTimeline, granularityPriority, List.findSome?_cons,
        List.findSome?_nil]
      cases asArr (jGet (Json.obj kvs) (lc "minutely")) with
      | some xs =>
        by_cases he : xs.isEmpty <;>
          simp [he, foldl_append_flatten]
      | none =>
        cases asArr (jGet (Json.obj kvs) (lc "hourly")) with
        | some xs =>
          by_cases he : xs.isEmpty <;>
            simp [he, foldl_append_flatten]
        | none =>
          cases asArr (jGet (Json.obj kvs) (lc "daily")) with
          | some xs =>
            by_cases he : xs.isEmpty <;>
              simp [he, foldl_append_flatten]
          | none => simp
  | null => simp [jTruthy]
  | bool b => cases b <;> simp [jTruthy, jIsObj]
  | num n => cases n <;> simp [jTruthy, jIsObj]
  | str s2 => simp [jTruthy, jIsObj]
  | arr xs => simp [jTruthy, jIsObj]

/-- Claim C7: when the forecast fetch succeeded (no "error" key) but the
LLM narration call fails, the composer's output is exactly the
deterministic fallback as the spec describes it (`forecastFallbackSpec`):
walk the first available timeline granularity in the priority order
minutely, hourly, daily; render at most the first 10 entries; include
the temperature/humidity/precipitation-probability/wind fields of an
entry only when present (the per-entry guards of
`renderForecastEntry`). -/
theorem c7_forecast_llm_fallback
    (wcur wfore : Json → Json) (e : List Char) (action_data pj : Json)
    (q : List Char) (hist : List ChatMsg) (loc : List Char)
    (hA : jGetD action_data (lc "action") (Json.str (lc "general")) = Json.str (lc "forecast"))
    (hP : jGetD action_data (lc "parameters") (Json.obj []) = pj)
    (hL : pyOr (jGet pj (lc "location")) (jGet pj (lc "city")) = Json.str loc)
    (hloc : loc ≠ [])
    (herr : jHasKey (wfore (Json.str loc)) (lc "error") = false) :
    (compose wcur wfore (fun _ => Except.error e) action_data q hist).1 =
      forecastFallbackSpec (wfore (Json.str loc)) (Json.str loc) := by
  have hne : (lc "forecast" == lc "current_weather") = false := by decide
  have hemp : loc.isEmpty = false := by
    cases loc with
    | nil => exact absurd rfl hloc
    | cons a l => rfl
  simp [compose, hA, hP, hL, jEqStr, hne, jTruthy, hemp, herr,
    forecastFallback_eq_spec]

/-- A forecast payload with only an hourly timeline whose entries carry
different subsets of the optional fields. -/
def hourlyPayload : Json := Json.obj [
  (lc "timelines", Json.obj [
    (lc "hourly", Json.arr [
      Json.obj [(lc "time", Json.str (lc "2025-01-01T00:00")),
                (lc "values", Json.obj [(lc "temperature", Json.num (JNum.int 20)),
                                        (lc "windSpeed", Json.num (JNum.int 3))])],
      Json.obj [(lc "time", Json.str (lc "2025-01-01T01:00")),
                (lc "values", Json.obj [(lc "humidity", Json.num (JNum.int 50)),
                                        (lc "precipitationProbability", Json.num (JNum.int 10))])]])])]

/-- Witness for `c7_forecast_llm_fallback` on a concrete payload with a
failing LLM stub. -/
theorem c7_witness :
    jHasKey hourlyPayload (lc "error") = false ∧
    (compose wcStub (fun _ => hourlyPayload) (fun _ => Except.error (lc "boom"))
        (descForecastNoDays (lc "Kyoto")) (lc "q") []).1 =
      forecastFallbackSpec hourlyPayload (Json.str (lc "Kyoto")) :=
  ⟨rfl,
    c7_forecast_llm_fallback wcStub (fun _ => hourlyPayload) (lc "boom")
      (descForecastNoDays (lc "Kyoto")) (Json.obj [(lc "city", Json.str (lc "Kyoto"))])
      (lc "q") [] (lc "Kyoto") rfl rfl rfl (by decide) rfl⟩

/-! ### String machinery for claim C5: the sanitization pipeline only
removes brace-free prefixes/suffixes before the brace slicing step. -/

/-- Split a list at the first occurrence of `c`. -/
theorem mem_first_split {c : Char} : ∀ {l : List Char}, c ∈ l →
    ∃ p q, l = p ++ c :: q ∧ c ∉ p := by
  intro l
  induction l with
  | nil => intro h; cases h
  | cons x xs ih =>
    intro h
    by_cases hx : x = c
    · exact ⟨[], xs, by simp [hx], by simp⟩
    · have hmem : c ∈ xs := by
        cases h with
        | head => exact absurd rfl hx
        | tail _ h2 => exact h2
      obtain ⟨p, q, hpq, hp⟩ := ih hmem
      refine ⟨x :: p, q, by simp [hpq], ?_⟩
      intro hmem2
      rcases List.mem_cons.mp hmem2 with h2 | h2
      · exact hx h2.symm
      · exact hp h2

/-- Split a list at the last occurrence of `c`. -/
theorem mem_last_split {c : Char} {l : List Char} (h : c ∈ l) :
    ∃ u v, l = u ++ c :: v ∧ c ∉ v := by
  have hrev : c ∈ l.reverse := List.mem_reverse.mpr h
  obtain ⟨p, q, hpq, hp⟩ := mem_first_split hrev
  refine ⟨q.reverse, p.reverse, ?_, by simp [hp]⟩
  have := congrArg List.reverse hpq
  simpa [List.reverse_append] using this

/-- Value of `firstIdx` at a first-occurrence decomposition. -/
theorem firstIdx_eq_of {c : Char} : ∀ {p : List Char} (q : List Char), c ∉ p →
    firstIdx c (p ++ c :: q) = some p.length := by
  intro p
  induction p with
  | nil => intro q _; simp [firstIdx]
  | cons x xs ih =>
    intro q hp
    have hx : ¬(x = c) := fun h => hp (by simp [h])
    have hxs : c ∉ xs := fun h => hp (by simp [h])
    simp [firstIdx, hx, ih q hxs]

/-- A successful `firstIdx` yields a first-occurrence decomposition. -/
theorem firstIdx_split {c : Char} : ∀ {l : List Char} {i : Nat},
    firstIdx c l = some i → ∃ p q, l = p ++ c :: q ∧ c ∉ p ∧ p.length = i := by
  intro l
  induction l with
  | nil => intro i h; simp [firstIdx] at h
  | cons x xs ih =>
    intro i h
    by_cases hx : x = c
    · simp [firstIdx, hx] at h
      exact ⟨[], xs, by simp [hx], by simp, by simp [← h]⟩
    · simp [firstIdx, hx] at h
      obtain ⟨i2, hi2, hplus⟩ := h
      obtain ⟨p, q, hpq, hp, hlen⟩ := ih hi2
      refine ⟨x :: p, q, by simp [hpq], ?_, by simp [hlen, hplus]⟩
      intro hmem2
      rcases List.mem_cons.mp hmem2 with h2 | h2
      · exact hx h2.symm
      · exact hp h2

/-- Value of `lastIdx` at a last-occurrence decomposition. -/
theorem lastIdx_eq_of {c : Char} {u v : List Char} (hv : c ∉ v) :
    lastIdx c (u ++ c :: v) = some (u.length) := by
  have hrev : (u ++ c :: v).reverse = v.reverse ++ c :: u.reverse := by
    simp [List.reverse_append]
  have hvr : c ∉ v.reverse := fun h => hv (List.mem_reverse.mp h)
  simp only [lastIdx, hrev, firstIdx_eq_of u.reverse hvr, Option.map_some']
  simp only [List.length_append, List.length_cons, List.length_reverse]
  congr 1
  omega

/-- A successful `lastIdx` yields a last-occurrence decomposition. -/
theorem lastIdx_split {c : Char} {l : List Char} {j : Nat}
    (h : lastIdx c l = some j) : ∃ u v, l = u ++ c :: v ∧ c ∉ v ∧ u.length = j := by
  simp only [lastIdx, Option.map_eq_some'] at h
  obtain ⟨jr, hjr, hj⟩ := h
  obtain ⟨p, q, hpq, hp, hlen⟩ := firstIdx_split hjr
  refine ⟨q.reverse, p.reverse, ?_, fun hmem => hp (List.mem_reverse.mp hmem), ?_⟩
  · have := congrArg List.reverse hpq
    simpa [List.reverse_append] using this
  · have hl : l.length = p.length + 1 + q.length := by
      have := congrArg List.length hpq
      simp at this
      omega
    simp only [List.length_reverse]
    omega

/-- Characterization of the brace slice at a canonical decomposition:
first `{` then last `}` with brace-free margins. -/
theorem sliceBraces_canon {p u v : List Char} (hp : lbrace ∉ p) (hv : rbrace ∉ v) :
    sliceBraces (p ++ lbrace :: (u ++ rbrace :: v)) = lbrace :: (u ++ [rbrace]) := by
  have hfi : firstIdx lbrace (p ++ lbrace :: (u ++ rbrace :: v)) = some p.length :=
    firstIdx_eq_of _ hp
  have hli : lastIdx rbrace (p ++ lbrace :: (u ++ rbrace :: v)) = some (p.length + u.length + 1) := by
    have h2 : p ++ lbrace :: (u ++ rbrace :: v) = (p ++ lbrace :: u) ++ rbrace :: v := by
      simp
    rw [h2, lastIdx_eq_of hv]
    simp
    omega
  have hij : p.length < p.length + u.length + 1 := by omega
  simp only [sliceBraces, hfi, hli, if_pos hij]
  have hdrop : (p ++ lbrace :: (u ++ rbrace :: v)).drop p.length = lbrace :: (u ++ rbrace :: v) :=
    List.drop_left' rfl
  rw [hdrop]
  have harith : p.length + u.length + 1 - p.length + 1 = u.length + 2 := by omega
  rw [harith]
  show lbrace :: (u ++ rbrace :: v).take (u.length + 1) = lbrace :: (u ++ [rbrace])
  congr 1
  have := @List.take_append Char u (rbrace :: v) 1
  simpa using this

/-- `sliceBraces` either leaves the string alone or cuts away a prefix
holding no `{` and a suffix holding no `}`. -/
theorem sliceBraces_decomp (s : List Char) :
    sliceBraces s = s ∨
    ∃ pre suf, s = pre ++ sliceBraces s ++ suf ∧ lbrace ∉ pre ∧ rbrace ∉ suf := by
  cases hf : firstIdx lbrace s with
  | none => left; simp [sliceBraces, hf]
  | some i =>
    cases hl : lastIdx rbrace s with
    | none => left; simp [sliceBraces, hf, hl]
    | some j =>
      by_cases hij : i < j
      · right
        obtain ⟨p, q, hpq, hp, hplen⟩ := firstIdx_split hf
        obtain ⟨u, v, huv, hv, hulen⟩ := lastIdx_split hl
        have hiu : i ≤ u.length := by omega
        have hdropi : s.drop i = u.drop i ++ rbrace :: v := by
          conv_lhs => rw [huv]
          conv_lhs =>
            rw [show u ++ rbrace :: v = u.take i ++ (u.drop i ++ rbrace :: v) by
              rw [← List.append_assoc, List.take_append_drop]]
          exact List.drop_left' (by simp [List.length_take]; omega)
        have hslice : sliceBraces s = u.drop i ++ [rbrace] := by
          simp only [sliceBraces, hf, hl, if_pos hij, hdropi]
          have hlen2 : (u.drop i).length = j - i := by simp [List.length_drop]; omega
          have : j - i + 1 = (u.drop i).length + 1 := by omega
          rw [this]
          have := @List.take_append Char (u.drop i) (rbrace :: v) 1
          simpa using this
        refine ⟨p, v, ?_, hp, hv⟩
        rw [hslice]
        have : p ++ (u.drop i ++ [rbrace]) ++ v = p ++ (u.drop i ++ rbrace :: v) := by simp
        rw [this, ← hdropi, hpq]
        have : (p ++ lbrace :: q).drop i = lbrace :: q := by
          rw [← hplen]; exact List.drop_left' rfl
        rw [this]
      · left; simp [sliceBraces, hf, hl, hij]

/-- Brace-freedom of a character list. -/
def braceFree (l : List Char) : Prop := lbrace ∉ l ∧ rbrace ∉ l

theorem braceFree_append {a b : List Char} (ha : braceFree a) (hb : braceFree b) :
    braceFree (a ++ b) := by
  constructor
  · simp [ha.1, hb.1, List.mem_append]
  · simp [ha.2, hb.2, List.mem_append]

/-- `m` sits inside `s` with brace-free material on both sides. -/
def Chunk (m s : List Char) : Prop :=
  ∃ a b, s = a ++ m ++ b ∧ braceFree a ∧ braceFree b

theorem chunk_refl (s : List Char) : Chunk s s :=
  ⟨[], [], by simp, ⟨by simp, by simp⟩, ⟨by simp, by simp⟩⟩

theorem chunk_trans {m s t : List Char} (h1 : Chunk m s) (h2 : Chunk s t) : Chunk m t := by
  obtain ⟨a1, b1, rfl, ha1, hb1⟩ := h1
  obtain ⟨a2, b2, rfl, ha2, hb2⟩ := h2
  exact ⟨a2 ++ a1, b1 ++ b2, by simp, braceFree_append ha2 ha1, braceFree_append hb1 hb2⟩

/-- Python whitespace contains no braces. -/
theorem braceFree_of_spaces {l : List Char} (h : ∀ c ∈ l, pyIsSpace c = true) :
    braceFree l := by
  constructor
  · intro hmem
    exact absurd (h _ hmem) (by decide)
  · intro hmem
    exact absurd (h _ hmem) (by decide)

theorem chunk_lstrip (s : List Char) : Chunk (lstrip s) s := by
  refine ⟨s.takeWhile pyIsSpace, [], by simp [lstrip], ?_, ⟨by simp, by simp⟩⟩
  exact braceFree_of_spaces fun c hc => List.mem_takeWhile_imp hc

theorem chunk_rstrip (s : List Char) : Chunk (rstrip s) s := by
  refine ⟨[], (s.reverse.takeWhile pyIsSpace).reverse, ?_, ⟨by simp, by simp⟩, ?_⟩
  · have h := List.takeWhile_append_dropWhile pyIsSpace s.reverse
    have h2 := congrArg List.reverse h
    simp only [List.reverse_append, List.reverse_reverse] at h2
    show s = [] ++ rstrip s ++ (s.reverse.takeWhile pyIsSpace).reverse
    simp only [List.nil_append, rstrip]
    exact h2.symm
  · refine braceFree_of_spaces fun c hc => ?_
    exact List.mem_takeWhile_imp (List.mem_reverse.mp hc)

theorem chunk_pstrip (s : List Char) : Chunk (pstrip s) s :=
  chunk_trans (chunk_rstrip (lstrip s)) (chunk_lstrip s)

theorem braceFree_fence : braceFree fence := by
  constructor <;> decide

theorem braceFree_jsonTag : braceFree jsonTag := by
  constructor <;> decide

theorem chunk_stripLeadingFence (s : List Char) : Chunk (stripLeadingFence s) s := by
  by_cases hpre : fence.isPrefixOf s
  · obtain ⟨r, hr⟩ := List.isPrefixOf_iff_prefix.mp hpre
    have hdrop : s.drop 3 = r := by rw [← hr]; exact List.drop_left' rfl
    have hchunk_r : Chunk r s := ⟨fence, [], by simp [← hr], braceFree_fence, ⟨by simp, by simp⟩⟩
    have hu : Chunk (pstrip (s.drop 3)) s := by
      rw [hdrop]; exact chunk_trans (chunk_pstrip r) hchunk_r
    by_cases htag : jsonTag.isPrefixOf (pstrip (s.drop 3))
    · obtain ⟨r2, hr2⟩ := List.isPrefixOf_iff_prefix.mp htag
      have hdrop2 : (pstrip (s.drop 3)).drop 4 = r2 := by rw [← hr2]; exact List.drop_left' rfl
      have hchunk_r2 : Chunk r2 (pstrip (s.drop 3)) :=
        ⟨jsonTag, [], by simp [← hr2], braceFree_jsonTag, ⟨by simp, by simp⟩⟩
      have : Chunk (pstrip ((pstrip (s.drop 3)).drop 4)) s := by
        rw [hdrop2]
        exact chunk_trans (chunk_trans (chunk_pstrip r2) hchunk_r2) hu
      simpa [stripLeadingFence, hpre, htag] using this
    · simpa [stripLeadingFence, hpre, htag] using hu
  · simpa [stripLeadingFence, hpre] using chunk_refl s

theorem chunk_stripTrailingFence (s : List Char) : Chunk (stripTrailingFence s) s := by
  by_cases hsuf : fence.isSuffixOf s
  · obtain ⟨pre, hpre⟩ := List.isSuffixOf_iff_suffix.mp hsuf
    have hlen : s.length - 3 = pre.length := by
      have := congrArg List.length hpre
      simp [fence, lc] at this
      omega
    have htake : pyDropLast3 s = pre := by
      rw [pyDropLast3, hlen, ← hpre]
      exact List.take_left' rfl
    have hchunk_pre : Chunk pre s := ⟨[], fence, by simp [← hpre], ⟨by simp, by simp⟩, braceFree_fence⟩
    have : Chunk (pstrip (pyDropLast3 s)) s := by
      rw [htake]; exact chunk_trans (chunk_pstrip pre) hchunk_pre
    simpa [stripTrailingFence, hsuf] using this
  · simpa [stripTrailingFence, hsuf] using chunk_refl s

/-- The pre-slicing part of the sanitization pipeline only removes
brace-free material. -/
theorem chunk_pipeline (s : List Char) :
    Chunk (stripTrailingFence (stripLeadingFence (pstrip s))) s :=
  chunk_trans (chunk_stripTrailingFence _)
    (chunk_trans (chunk_stripLeadingFence _) (chunk_pstrip s))

theorem chunk_wrapJson (t : List Char) : Chunk t (wrapJson t) := by
  refine ⟨fence ++ jsonTag ++ ['\n'], '\n' :: fence, by simp [wrapJson], ?_, ?_⟩
  · constructor <;> decide
  · constructor <;> decide

theorem chunk_wrapPlain (t : List Char) : Chunk t (wrapPlain t) := by
  refine ⟨fence ++ ['\n'], '\n' :: fence, by simp [wrapPlain], ?_, ?_⟩
  · constructor <;> decide
  · constructor <;> decide

/-- Prefix comparison: if a list both starts with `c`-free `A` and
equals `E ++ c :: S` with `c ∉ E`, then `A` is a prefix of `E`. -/
theorem pfx {c : Char} : ∀ {A E R S : List Char}, A ++ R = E ++ c :: S → c ∉ A → c ∉ E →
    ∃ E2, E = A ++ E2 ∧ c ∉ E2 := by
  intro A
  induction A with
  | nil => intro E R S h _ hE; exact ⟨E, by simp, hE⟩
  | cons a A2 ih =>
    intro E R S h hA hE
    cases E with
    | nil =>
      simp at h
      exact absurd (by simp [h.1]) hA
    | cons e E2 =>
      simp at h
      obtain ⟨rfl, h2⟩ := h
      have hA2 : c ∉ A2 := fun hm => hA (by simp [hm])
      have hE2 : c ∉ E2 := fun hm => hE (by simp [hm])
      obtain ⟨E3, hE3, hcE3⟩ := ih h2 hA2 hE2
      exact ⟨E3, by simp [hE3], hcE3⟩

/-- Transfer of the canonical brace core into any chunk of the same
string: a sub-slice with brace-free margins must contain the span from
the first `{` to the last `}` intact. -/
theorem transfer {X E F u A m B : List Char}
    (h1 : X = E ++ lbrace :: (u ++ rbrace :: F)) (hE : lbrace ∉ E) (hF : rbrace ∉ F)
    (h2 : X = A ++ m ++ B) (hA : braceFree A) (hB : braceFree B) :
    ∃ P V, m = P ++ lbrace :: (u ++ rbrace :: V) ∧ lbrace ∉ P ∧ rbrace ∉ V := by
  have hall : A ++ (m ++ B) = E ++ lbrace :: (u ++ rbrace :: F) := by
    rw [← h1, h2]; simp
  obtain ⟨E2, rfl, hE2⟩ := pfx hall hA.1 hE
  have hmB : m ++ B = E2 ++ lbrace :: (u ++ rbrace :: F) := by
    have := hall
    rw [List.append_assoc] at this
    exact List.append_cancel_left this
  have hrev : B.reverse ++ m.reverse = F.reverse ++ rbrace :: (u.reverse ++ lbrace :: E2.reverse) := by
    have := congrArg List.reverse hmB
    simpa [List.reverse_append, List.append_assoc] using this
  have hBr : rbrace ∉ B.reverse := fun h => hB.2 (List.mem_reverse.mp h)
  have hFr : rbrace ∉ F.reverse := fun h => hF (List.mem_reverse.mp h)
  obtain ⟨G, hG, hrG⟩ := pfx hrev hBr hFr
  have hFG : F = G.reverse ++ B := by
    have := congrArg List.reverse hG
    simpa [List.reverse_append] using this
  have hm : m ++ B = (E2 ++ lbrace :: (u ++ rbrace :: G.reverse)) ++ B := by
    rw [hmB, hFG]; simp
  have hm2 : m = E2 ++ lbrace :: (u ++ rbrace :: G.reverse) := List.append_cancel_right hm
  exact ⟨E2, G.reverse, hm2, hE2, fun h => hrG (List.mem_reverse.mp h)⟩

/-! ### Parser consumption lemmas (claim C5): a successful parse returns
a suffix of its input, and an object parse consumes a brace pair. -/

theorem suffix_tail {a : Char} {l t : List Char} (h : t <:+ l) : t <:+ a :: l :=
  h.trans (List.suffix_cons a l)

theorem parseStringBody_suffix : ∀ (f : Nat) (s : List Char) (pr : List Char × List Char),
    parseStringBody f s = some pr → pr.2 <:+ s := by
  intro f
  induction f with
  | zero => intro s pr h; simp [parseStringBody] at h
  | succ f ih =>
    intro s pr h
    cases s with
    | nil => simp [parseStringBody] at h
    | cons c rest =>
      simp only [parseStringBody] at h
      by_cases hq : c = '"'
      · simp only [if_pos hq] at h
        cases h
        exact List.suffix_cons _ _
      · simp only [if_neg hq] at h
        by_cases hb : c = '\\'
        · simp only [if_pos hb] at h
          cases rest with
          | nil => simp at h
          | cons e rest2 =>
            by_cases hu : e = 'u'
            · simp only [if_pos hu] at h
              split at h
              · split at h
                · obtain ⟨pr2, hpr2, rfl⟩ := Option.map_eq_some'.mp h
                  exact suffix_tail (suffix_tail (suffix_tail (suffix_tail
                    (suffix_tail (suffix_tail (ih _ pr2 hpr2))))))
                · simp at h
              · simp at h
            · simp only [if_neg hu] at h
              split at h
              · obtain ⟨pr2, hpr2, rfl⟩ := Option.map_eq_some'.mp h
                exact suffix_tail (suffix_tail (ih _ pr2 hpr2))
              · simp at h
        · simp only [if_neg hb] at h
          by_cases hc32 : c.toNat < 32
          · rw [if_pos hc32] at h; simp at h
          · rw [if_neg hc32] at h
            obtain ⟨pr2, hpr2, rfl⟩ := Option.map_eq_some'.mp h
            exact suffix_tail (ih _ pr2 hpr2)

theorem parseFrac_suffix (s : List Char) (d r : List Char)
    (h : parseFrac s = some (d, r)) : r <:+ s := by
  cases s with
  | nil => cases h; exact List.nil_suffix
  | cons c rest =>
    simp only [parseFrac] at h
    split at h
    · split at h
      · simp at h
      · cases h; exact suffix_tail (List.drop_suffix _ _)
    · cases h; exact List.suffix_refl _

theorem parseExp_suffix (s : List Char) (pr : Bool × Bool × List Char × List Char)
    (h : parseExp s = some pr) : pr.2.2.2 <:+ s := by
  cases s with
  | nil => cases h; exact List.nil_suffix
  | cons c rest =>
    simp only [parseExp] at h
    split at h
    · cases rest with
      | nil => simp at h
      | cons e1 rest2 =>
        simp only at h
        split at h
        · split at h
          · simp at h
          · cases h; exact suffix_tail (suffix_tail (List.drop_suffix _ _))
        · split at h
          · split at h
            · simp at h
            · cases h; exact suffix_tail (suffix_tail (List.drop_suffix _ _))
          · split at h
            · simp at h
            · cases h; exact suffix_tail (List.drop_suffix _ _)
    · cases h; exact List.suffix_refl _

theorem pySign_suffix (s : List Char) : (pySign s).2 <:+ s := by
  cases s with
  | nil => exact List.suffix_refl _
  | cons c rest =>
    simp only [pySign]
    split
    · exact List.suffix_cons _ _
    · exact List.suffix_refl _

theorem parseNumber_suffix (s : List Char) (pr : Json × List Char)
    (h : parseNumber s = some pr) : pr.2 <:+ s := by
  simp only [parseNumber] at h
  split at h
  · simp at h
  · split at h
    · simp at h
    · split at h
      · simp at h
      · rename_i fracDigits s3 hfrac
        split at h
        · simp at h
        · rename_i hasExp expNeg expDigits s4 hexp
          have hs2 : (pySign s).2.drop ((pySign s).2.takeWhile isDigit).length <:+ s :=
            (List.drop_suffix _ _).trans (pySign_suffix s)
          have hs3 : s3 <:+ s := (parseFrac_suffix _ _ _ hfrac).trans hs2
          have hs4 : s4 <:+ s := by
            have := parseExp_suffix _ _ hexp
            exact List.IsSuffix.trans this hs3
          split at h
          · cases h; exact hs2
          · cases h; exact hs4

theorem parseNumber_num (s : List Char) (v : Json) (rest : List Char)
    (h : parseNumber s = some (v, rest)) : ∃ n, v = Json.num n := by
  simp only [parseNumber] at h
  split at h
  · simp at h
  · split at h
    · simp at h
    · split at h
      · simp at h
      · split at h
        · simp at h
        · split at h
          · cases h; exact ⟨_, rfl⟩
          · cases h; exact ⟨_, rfl⟩

theorem skipWs_suffix (l : List Char) : skipWs l <:+ l := List.dropWhile_suffix _

theorem parse_suffix : ∀ f : Nat,
    (∀ s v rest, parseVal f s = some (v, rest) → rest <:+ s) ∧
    (∀ s kvs rest, parsePairs f s = some (kvs, rest) → rest <:+ s) ∧
    (∀ s xs rest, parseItems f s = some (xs, rest) → rest <:+ s) := by
  intro f
  induction f with
  | zero =>
    refine ⟨?_, ?_, ?_⟩ <;> intro s a rest h <;> simp [parseVal, parsePairs, parseItems] at h
  | succ f ih =>
    obtain ⟨ihv, ihp, ihi⟩ := ih
    refine ⟨?_, ?_, ?_⟩
    · intro s v rest h
      simp only [parseVal] at h
      cases hsw : skipWs s with
      | nil => rw [hsw] at h; simp at h
      | cons c r0 =>
        rw [hsw] at h
        dsimp only at h
        have hr0s : (c :: r0) <:+ s := hsw ▸ skipWs_suffix s
        split at h
        · obtain ⟨pr2, hpr2, heq2⟩ := Option.map_eq_some'.mp h
          cases heq2
          exact (suffix_tail (parseStringBody_suffix f r0 pr2 hpr2)).trans hr0s
        · split at h
          · split at h
            · rename_i c2 rest2 heq
              have h1 : (c2 :: rest2) <:+ r0 := heq ▸ skipWs_suffix r0
              split at h
              · cases h
                exact (suffix_tail ((List.suffix_cons _ _).trans h1)).trans hr0s
              · obtain ⟨pr2, hpr2, heq2⟩ := Option.map_eq_some'.mp h
                cases heq2
                exact (suffix_tail ((ihp _ pr2.1 pr2.2 hpr2).trans (skipWs_suffix r0))).trans hr0s
            · simp at h
          · split at h
            · split at h
              · rename_i c2 rest2 heq
                have h1 : (c2 :: rest2) <:+ r0 := heq ▸ skipWs_suffix r0
                split at h
                · cases h
                  exact (suffix_tail ((List.suffix_cons _ _).trans h1)).trans hr0s
                · obtain ⟨pr2, hpr2, heq2⟩ := Option.map_eq_some'.mp h
                  cases heq2
                  exact (suffix_tail ((ihi _ pr2.1 pr2.2 hpr2).trans (skipWs_suffix r0))).trans hr0s
              · simp at h
            · split at h
              · cases h; exact (List.drop_suffix _ _).trans hr0s
              · split at h
                · cases h; exact (List.drop_suffix _ _).trans hr0s
                · split at h
                  · cases h; exact (List.drop_suffix _ _).trans hr0s
                  · split at h
                    · cases h; exact (List.drop_suffix _ _).trans hr0s
                    · split at h
                      · cases h; exact (List.drop_suffix _ _).trans hr0s
                      · split at h
                        · cases h; exact (List.drop_suffix _ _).trans hr0s
                        · exact (parseNumber_suffix _ (v, rest) h).trans hr0s
    · intro s kvs rest h
      simp only [parsePairs] at h
      cases hsw : skipWs s with
      | nil => rw [hsw] at h; simp at h
      | cons c r0 =>
        rw [hsw] at h
        dsimp only at h
        have hr0s : (c :: r0) <:+ s := hsw ▸ skipWs_suffix s
        split at h
        · split at h
          · rename_i key r1 hsb
            have hr1 : r1 <:+ r0 := parseStringBody_suffix f r0 (key, r1) hsb
            cases hsw2 : skipWs r1 with
            | nil => rw [hsw2] at h; simp at h
            | cons c2 r2 =>
              rw [hsw2] at h
              dsimp only at h
              have hr2 : r2 <:+ r1 :=
                (List.suffix_cons c2 r2).trans (hsw2 ▸ skipWs_suffix r1)
              split at h
              · split at h
                · rename_i v r3 hval
                  have hr3 : r3 <:+ r2 := ihv _ _ _ hval
                  cases hsw3 : skipWs r3 with
                  | nil => rw [hsw3] at h; simp at h
                  | cons c3 r4 =>
                    rw [hsw3] at h
                    dsimp only at h
                    have hr4 : r4 <:+ r3 :=
                      (List.suffix_cons c3 r4).trans (hsw3 ▸ skipWs_suffix r3)
                    split at h
                    · obtain ⟨pr2, hpr2, heq2⟩ := Option.map_eq_some'.mp h
                      cases heq2
                      exact ((((ihp _ pr2.1 pr2.2 hpr2).trans hr4).trans hr3).trans hr2).trans
                        ((suffix_tail hr1).trans hr0s)
                    · split at h
                      · cases h
                        exact (((hr4.trans hr3).trans hr2).trans (suffix_tail hr1)).trans hr0s
                      · simp at h
                · simp at h
              · simp at h
          · simp at h
        · simp at h
    · intro s xs rest h
      simp only [parseItems] at h
      split at h
      · rename_i v r1 hval
        have hr1 : r1 <:+ s := ihv _ _ _ hval
        cases hsw2 : skipWs r1 with
        | nil => rw [hsw2] at h; simp at h
        | cons c2 r2 =>
          rw [hsw2] at h
          dsimp only at h
          have hr2 : r2 <:+ r1 :=
            (List.suffix_cons c2 r2).trans (hsw2 ▸ skipWs_suffix r1)
          split at h
          · obtain ⟨pr2, hpr2, heq2⟩ := Option.map_eq_some'.mp h
            cases heq2
            exact ((ihi _ pr2.1 pr2.2 hpr2).trans hr2).trans hr1
          · split at h
            · cases h
              exact hr2.trans hr1
            · simp at h
      · simp at h

/-- A successful `parsePairs` run consumes the closing brace of the
object: the input splits as consumed material, `}`, then the rest. -/
theorem parsePairs_rbrace : ∀ (f : Nat) (s : List Char) (kvs : List (List Char × Json))
    (rest : List Char), parsePairs f s = some (kvs, rest) →
    ∃ mid, s = mid ++ rbrace :: rest := by
  intro f
  induction f with
  | zero => intro s kvs rest h; simp [parsePairs] at h
  | succ f ih =>
    intro s kvs rest h
    simp only [parsePairs] at h
    cases hsw : skipWs s with
    | nil => rw [hsw] at h; simp at h
    | cons c r0 =>
      rw [hsw] at h
      dsimp only at h
      have hs : s = s.takeWhile jsonWs ++ (c :: r0) := by
        rw [← hsw]; exact (List.takeWhile_append_dropWhile _ _).symm
      split at h
      · split at h
        · rename_i key r1 hsb
          obtain ⟨p1, hp1⟩ := parseStringBody_suffix f r0 (key, r1) hsb
          dsimp only at hp1
          cases hsw2 : skipWs r1 with
          | nil => rw [hsw2] at h; simp at h
          | cons c2 r2 =>
            rw [hsw2] at h
            dsimp only at h
            have hr1eq : r1 = r1.takeWhile jsonWs ++ (c2 :: r2) := by
              rw [← hsw2]; exact (List.takeWhile_append_dropWhile _ _).symm
            split at h
            · split at h
              · rename_i v r3 hval
                obtain ⟨p2, hp2⟩ := (parse_suffix f).1 _ _ _ hval
                cases hsw3 : skipWs r3 with
                | nil => rw [hsw3] at h; simp at h
                | cons c3 r4 =>
                  rw [hsw3] at h
                  dsimp only at h
                  have hr3eq : r3 = r3.takeWhile jsonWs ++ (c3 :: r4) := by
                    rw [← hsw3]; exact (List.takeWhile_append_dropWhile _ _).symm
                  split at h
                  · obtain ⟨pr2, hpr2, heq2⟩ := Option.map_eq_some'.mp h
                    cases heq2
                    obtain ⟨mid2, hmid2⟩ := ih _ _ _ hpr2
                    rw [hmid2] at hr3eq
                    rw [hr3eq] at hp2
                    rw [← hp2] at hr1eq
                    rw [hr1eq] at hp1
                    rw [← hp1] at hs
                    refine ⟨s.takeWhile jsonWs ++ c :: (p1 ++ (r1.takeWhile jsonWs ++
                      c2 :: (p2 ++ (r3.takeWhile jsonWs ++ c3 :: mid2)))), ?_⟩
                    conv_lhs => rw [hs]
                    simp [List.append_assoc]
                  · split at h
                    · rename_i hrb
                      cases h
                      rw [hr3eq] at hp2
                      rw [← hp2] at hr1eq
                      rw [hr1eq] at hp1
                      rw [← hp1] at hs
                      rw [hrb] at hs
                      refine ⟨s.takeWhile jsonWs ++ c :: (p1 ++ (r1.takeWhile jsonWs ++
                        c2 :: (p2 ++ r3.takeWhile jsonWs))), ?_⟩
                      conv_lhs => rw [hs]
                      simp [List.append_assoc]
                    · simp at h
              · simp at h
            · simp at h
        · simp at h
      · simp at h

/-- A value parse returning an object consumed a whitespace prefix, an
opening brace, material, and a closing brace just before the rest. -/
theorem parseVal_obj : ∀ (f : Nat) (s : List Char) (kvs : List (List Char × Json))
    (rest : List Char), parseVal f s = some (Json.obj kvs, rest) →
    ∃ a mid, s = a ++ lbrace :: (mid ++ rbrace :: rest) ∧ lbrace ∉ a := by
  intro f s kvs rest h
  cases f with
  | zero => simp [parseVal] at h
  | succ f =>
    simp only [parseVal] at h
    cases hsw : skipWs s with
    | nil => rw [hsw] at h; simp at h
    | cons c r0 =>
      rw [hsw] at h
      dsimp only at h
      have hs : s = s.takeWhile jsonWs ++ (c :: r0) := by
        rw [← hsw]; exact (List.takeWhile_append_dropWhile _ _).symm
      have ha : lbrace ∉ s.takeWhile jsonWs := by
        intro hmem
        exact absurd (List.mem_takeWhile_imp hmem) (by decide)
      split at h
      · obtain ⟨pr2, hpr2, heq2⟩ := Option.map_eq_some'.mp h
        simp at heq2
      · split at h
        · rename_i hlb
          split at h
          · rename_i c2 rest2 heq
            have hr0 : r0 = r0.takeWhile jsonWs ++ (c2 :: rest2) := by
              rw [← heq]; exact (List.takeWhile_append_dropWhile _ _).symm
            split at h
            · rename_i hrb
              cases h
              refine ⟨s.takeWhile jsonWs, r0.takeWhile jsonWs, ?_, ha⟩
              subst hlb
              subst hrb
              conv_lhs => rw [hs, hr0]
            · obtain ⟨pr2, hpr2, heq2⟩ := Option.map_eq_some'.mp h
              injection heq2 with hj hr
              injection hj with hk
              subst hr
              subst hk
              obtain ⟨mid2, hmid2⟩ := parsePairs_rbrace f _ _ _ hpr2
              refine ⟨s.takeWhile jsonWs, r0.takeWhile jsonWs ++ mid2, ?_, ha⟩
              subst hlb
              have hr0b : r0 = r0.takeWhile jsonWs ++ (mid2 ++ rbrace :: pr2.2) := by
                conv_lhs => rw [← List.takeWhile_append_dropWhile jsonWs r0]
                have : List.dropWhile jsonWs r0 = mid2 ++ rbrace :: pr2.2 := hmid2
                rw [this]
              conv_lhs => rw [hs, hr0b]
              simp [List.append_assoc]
          · simp at h
        · split at h
          · split at h
            · split at h
              · simp at h
              · obtain ⟨pr2, hpr2, heq2⟩ := Option.map_eq_some'.mp h
                simp at heq2
            · simp at h
          · split at h
            · simp at h
            · split at h
              · simp at h
              · split at h
                · simp at h
                · split at h
                  · simp at h
                  · split at h
                    · simp at h
                    · split at h
                      · simp at h
                      · obtain ⟨n, hn⟩ := parseNumber_num _ _ _ h
                        simp at hn

/-- A full `json.loads` run returning an object: the document is
whitespace, an opening brace, material, a closing brace, and trailing
whitespace. -/
theorem parseJson_obj {s : List Char} {kvs : List (List Char × Json)}
    (h : parseJson s = some (Json.obj kvs)) :
    ∃ a mid rest, s = a ++ lbrace :: (mid ++ rbrace :: rest) ∧ lbrace ∉ a := by
  simp only [parseJson] at h
  split at h
  · rename_i v rest hpv
    split at h
    · cases h
      obtain ⟨a, mid, hdec, hnl⟩ := parseVal_obj _ _ _ _ hpv
      exact ⟨a, mid, rest, hdec, hnl⟩
    · simp at h
  · simp at h

/-- A sanitized text that parses as a JSON object pins down a canonical
brace core of the pre-slicing pipeline output: first `{`, last `}`,
brace-free margins. -/
theorem sanitize_core {t : List Char} {kvs : List (List Char × Json)}
    (hp : parseJson (sanitize t) = some (Json.obj kvs)) :
    ∃ P u V, stripTrailingFence (stripLeadingFence (pstrip t)) =
        P ++ lbrace :: (u ++ rbrace :: V) ∧ lbrace ∉ P ∧ rbrace ∉ V := by
  have hp2 : parseJson (sliceBraces (stripTrailingFence (stripLeadingFence (pstrip t)))) =
      some (Json.obj kvs) := hp
  rcases sliceBraces_decomp (stripTrailingFence (stripLeadingFence (pstrip t))) with
    heq | ⟨pre, suf, hdec, hpre, hsuf⟩
  · rw [heq] at hp2
    obtain ⟨a, mid, rest, hsplit, hna⟩ := parseJson_obj hp2
    have hmem : rbrace ∈ mid ++ rbrace :: rest := by simp
    obtain ⟨u, V, hq, hV⟩ := mem_last_split hmem
    exact ⟨a, u, V, by rw [hsplit, hq], hna, hV⟩
  · obtain ⟨a, mid, rest, hsplit, hna⟩ := parseJson_obj hp2
    have hmem : rbrace ∈ mid ++ rbrace :: (rest ++ suf) := by simp
    obtain ⟨u, V, hq, hV⟩ := mem_last_split hmem
    refine ⟨pre ++ a, u, V, ?_, ?_, hV⟩
    · rw [hdec, hsplit, ← hq]
      simp [List.append_assoc]
    · intro hmem2
      rcases List.mem_append.mp hmem2 with hc | hc
      · exact hpre hc
      · exact hna hc

/-- Claim C5: for every classifier response text `t` whose sanitization
parses to an action descriptor `d` (a JSON object carrying an "action"
key), wrapping `t` in a fenced code block — with or without the `json`
language tag — and sanitizing yields the very same string, hence the
same parsed descriptor `d`. -/
theorem c5_fence_wrapping_invariant (t : List Char) (kvs : List (List Char × Json))
    (hp : parseJson (sanitize t) = some (Json.obj kvs))
    (hact : (jlookup kvs (lc "action")).isSome = true) :
    sanitize (wrapJson t) = sanitize t ∧ sanitize (wrapPlain t) = sanitize t ∧
    parseJson (sanitize (wrapJson t)) = some (Json.obj kvs) ∧
    parseJson (sanitize (wrapPlain t)) = some (Json.obj kvs) := by
  obtain ⟨P, u, V, hm, hP, hV⟩ := sanitize_core hp
  have hsan_t : sanitize t = lbrace :: (u ++ [rbrace]) := by
    show sliceBraces (stripTrailingFence (stripLeadingFence (pstrip t))) = _
    rw [hm]
    exact sliceBraces_canon hP hV
  have key : ∀ w : List Char, Chunk t w → sanitize w = sanitize t := by
    intro w hcw
    have hmt_w : Chunk (stripTrailingFence (stripLeadingFence (pstrip t))) w :=
      chunk_trans (chunk_pipeline t) hcw
    obtain ⟨A, B, hw, hA, hB⟩ := hmt_w
    have hw2 : w = (A ++ P) ++ lbrace :: (u ++ rbrace :: (V ++ B)) := by
      rw [hw, hm]
      simp [List.append_assoc]
    have hEl : lbrace ∉ A ++ P := by
      intro hmem
      rcases List.mem_append.mp hmem with hc | hc
      · exact hA.1 hc
      · exact hP hc
    have hFr : rbrace ∉ V ++ B := by
      intro hmem
      rcases List.mem_append.mp hmem with hc | hc
      · exact hV hc
      · exact hB.2 hc
    obtain ⟨A2, B2, hw3, hA2, hB2⟩ := chunk_pipeline w
    obtain ⟨P2, V2, hmw_eq, hP2, hV2⟩ := transfer hw2 hEl hFr hw3 hA2 hB2
    show sliceBraces (stripTrailingFence (stripLeadingFence (pstrip w))) = _
    rw [hmw_eq, sliceBraces_canon hP2 hV2, hsan_t]
  have h1 := key (wrapJson t) (chunk_wrapJson t)
  have h2 := key (wrapPlain t) (chunk_wrapPlain t)
  exact ⟨h1, h2, by rw [h1]; exact hp, by rw [h2]; exact hp⟩

/-- Witness for `c5_fence_wrapping_invariant` at a concrete descriptor
response text. -/
theorem c5_witness :
    parseJson (sanitize (lc "\x7b\"action\": \"general\", \"parameters\": \x7b\x7d\x7d")) =
      some (Json.obj [(lc "action", Json.str (lc "general")),
                      (lc "parameters", Json.obj [])]) ∧
    sanitize (wrapJson (lc "\x7b\"action\": \"general\", \"parameters\": \x7b\x7d\x7d")) =
      sanitize (lc "\x7b\"action\": \"general\", \"parameters\": \x7b\x7d\x7d") ∧
    sanitize (wrapPlain (lc "\x7b\"action\": \"general\", \"parameters\": \x7b\x7d\x7d")) =
      sanitize (lc "\x7b\"action\": \"general\", \"parameters\": \x7b\x7d\x7d") :=
  ⟨rfl,
    (c5_fence_wrapping_invariant (lc "\x7b\"action\": \"general\", \"parameters\": \x7b\x7d\x7d")
      [(lc "action", Json.str (lc "general")), (lc "parameters", Json.obj [])] rfl rfl).1,
    (c5_fence_wrapping_invariant (lc "\x7b\"action\": \"general\", \"parameters\": \x7b\x7d\x7d")
      [(lc "action", Json.str (lc "general")), (lc "parameters", Json.obj [])] rfl rfl).2.1⟩
